import Mathlib

/-!
# GBM calibration (`src/gbm.cpp`, `src/gbm.h`)

A shallow embedding of the calibration pipeline: the price-curve validator
`validatePriceCurve`, the estimator `calibrateFromPriceCurve` and the entry
point `calibrate`, followed by the properties proved about them.

`double` values are embedded in an arbitrary linearly ordered field `α`
(exact arithmetic); `std::log` and `std::sqrt` are parameters `log sqrt : α → α`
that the theorems instantiate with `Real.log` and `Real.sqrt` over `ℝ`.
C++ exceptions are embedded as values of `Except Exception _`.
-/

set_option linter.unusedSectionVars false

namespace gbm

/-! ## Exceptions -/

/-- The dynamic type of a thrown standard exception. `invalid_argument` and
`out_of_range` derive from `std::logic_error`, not from `std::runtime_error`. -/
inductive ExceptionType where
  | runtime_error
  | invalid_argument
  | out_of_range
deriving DecidableEq, Repr

/-- A thrown exception: its dynamic type and its `what()` message. -/
structure Exception where
  type : ExceptionType
  what : String
deriving DecidableEq, Repr

/-! ## Calendar dates (`std::chrono::year_month_day`) -/

/-- The fields of `std::chrono::year_month_day`: a year and an unsigned month and day.
A value need not be a real calendar date; see `YearMonthDay.ok`. -/
structure YearMonthDay where
  year : Int
  month : Nat
  day : Nat
deriving DecidableEq, Repr

/-- The leap-year test `std::chrono::year::is_leap`. -/
def is_leap (y : Int) : Bool :=
  y % 4 == 0 && (y % 100 != 0 || y % 400 == 0)

/-- The last day of month `m` of year `y` (`year_month_day_last::day`). -/
def lastDayOfMonth (y : Int) (m : Nat) : Nat :=
  if m == 2 then (if is_leap y then 29 else 28)
  else if m == 4 || m == 6 || m == 9 || m == 11 then 30
  else 31

/-- The validity test `year_month_day::ok()`: the year is in range, the month is in 1..12
and the day is in 1..(last day of that month of that year). -/
def YearMonthDay.ok (d : YearMonthDay) : Bool :=
  decide (-32767 ≤ d.year) && decide (d.year ≤ 32767)
    && decide (1 ≤ d.month) && decide (d.month ≤ 12)
    && decide (1 ≤ d.day) && decide (d.day ≤ lastDayOfMonth d.year d.month)

/-- The comparison `operator<=` of `year_month_day`: lexicographic on year, then month, then day. -/
def YearMonthDay.le (a b : YearMonthDay) : Bool :=
  if a.year != b.year then decide (a.year < b.year)
  else if a.month != b.month then decide (a.month < b.month)
  else decide (a.day ≤ b.day)

/-- The comparison `operator<` of `year_month_day`: lexicographic on year, then month, then day. -/
def YearMonthDay.lt (a b : YearMonthDay) : Bool :=
  if a.year != b.year then decide (a.year < b.year)
  else if a.month != b.month then decide (a.month < b.month)
  else decide (a.day < b.day)

/-- The conversion `std::chrono::sys_days{ymd}`: the number of days from 1970-01-01 to the
date in the proleptic Gregorian calendar, computed by the standard civil-to-days
algorithm (years start on March 1 and are grouped in 400-year eras). The C++ standard
fixes this value for dates that pass `ok()`, which are the only dates `parseDate` returns;
`sysDays_epoch` and `sysDays_nextDay` below check the algorithm against the calendar. -/
def sysDays (d : YearMonthDay) : Int :=
  let y : Int := if d.month ≤ 2 then d.year - 1 else d.year
  let era : Int := y / 400
  let yoe : Int := y - era * 400
  let mp : Int := if d.month > 2 then (d.month : Int) - 3 else (d.month : Int) + 9
  let doy : Int := (153 * mp + 2) / 5 + (d.day : Int) - 1
  let doe : Int := yoe * 365 + yoe / 4 - yoe / 100 + doy
  era * 146097 + doe - 719468

/-! ## The data model of `gbm.h` -/

/-- The type `struct PricePoint`: a date and a price. -/
structure PricePoint (α : Type) where
  date : YearMonthDay
  price : α

/-- The type `struct ModelParams`: the calibrated drift and volatility. -/
structure ModelParams (α : Type) where
  mu : α
  sigma : α

variable {α : Type} [LinearOrderedField α]

/-- The value read by an index expression `priceCurve[i]`; every access in the
source is within bounds, the fallback value is never used there. -/
def at_ (priceCurve : List (PricePoint α)) (i : Nat) : PricePoint α :=
  priceCurve.getD i ⟨⟨0, 0, 0⟩, 0⟩

/-- The constant `const double DAYS_PER_YEAR = 365.0`. -/
def DAYS_PER_YEAR : α := 365

/-! ## `validatePriceCurve` -/

/-- The date loop of `validatePriceCurve`, run over the remaining indices `i`:
it throws at the first `i` with `priceCurve[i].date <= priceCurve[i-1].date`. -/
def checkDates (priceCurve : List (PricePoint α)) : List Nat → Except Exception Unit
  | [] => pure ()
  | i :: rest =>
    if (at_ priceCurve i).date.le (at_ priceCurve (i - 1)).date then
      throw ⟨.invalid_argument, "Dates must be in ascending order"⟩
    else checkDates priceCurve rest

/-- The function `validatePriceCurve`: the three checks in source order (size, prices, dates),
each throwing `std::invalid_argument`. -/
def validatePriceCurve (priceCurve : List (PricePoint α)) : Except Exception Unit :=
  if priceCurve.length < 2 then
    throw ⟨.invalid_argument, "Need at least 2 price observations"⟩
  else if !priceCurve.all (fun pp => decide (pp.price > 0)) then
    throw ⟨.invalid_argument, "All prices must be positive"⟩
  else
    checkDates priceCurve (List.range' 1 (priceCurve.length - 1))

/-! ## `calibrateFromPriceCurve` -/

/-- The local variables the first loop of `calibrateFromPriceCurve` updates. -/
structure Accum (α : Type) where
  logReturns : List α
  timeDeltas : List α
  totalLogReturn : α
  totalTime : α

/-- One iteration (index `i`) of the first loop of `calibrateFromPriceCurve`. -/
def accumStep (log : α → α) (priceCurve : List (PricePoint α)) (s : Accum α) (i : Nat) :
    Accum α :=
  let logReturn := log ((at_ priceCurve i).price / (at_ priceCurve (i - 1)).price)
  let sys_days1 := sysDays (at_ priceCurve (i - 1)).date
  let sys_days2 := sysDays (at_ priceCurve i).date
  let days : α := ((sys_days2 - sys_days1 : Int) : α)
  let dt := days / DAYS_PER_YEAR
  { logReturns := s.logReturns ++ [logReturn]
    timeDeltas := s.timeDeltas ++ [days / DAYS_PER_YEAR]
    totalLogReturn := s.totalLogReturn + logReturn
    totalTime := s.totalTime + dt }

/-- The first loop of `calibrateFromPriceCurve`: `for (i = 1; i < size; ++i)`. -/
def accumulate (log : α → α) (priceCurve : List (PricePoint α)) : Accum α :=
  (List.range' 1 (priceCurve.length - 1)).foldl (accumStep log priceCurve) ⟨[], [], 0, 0⟩

/-- The local `meanReturn = totalLogReturn / totalTime`. -/
def meanReturn (log : α → α) (priceCurve : List (PricePoint α)) : α :=
  (accumulate log priceCurve).totalLogReturn / (accumulate log priceCurve).totalTime

/-- One iteration (index `i`) of the second loop: `sum_error_sq += error * error / timeDeltas[i]`. -/
def errorStep (logReturns timeDeltas : List α) (mean : α) (sum_error_sq : α) (i : Nat) : α :=
  let error := logReturns.getD i 0 - mean * timeDeltas.getD i 0
  sum_error_sq + error * error / timeDeltas.getD i 0

/-- The local `sum_error_sq` after the second loop, `for (i = 0; i < logReturns.size(); ++i)`. -/
def sumErrorSq (log : α → α) (priceCurve : List (PricePoint α)) : α :=
  let s := accumulate log priceCurve
  (List.range s.logReturns.length).foldl
    (errorStep s.logReturns s.timeDeltas (meanReturn log priceCurve)) 0

/-- The local `variance = sum_error_sq / logReturns.size()`. -/
def variance (log : α → α) (priceCurve : List (PricePoint α)) : α :=
  sumErrorSq log priceCurve / ((accumulate log priceCurve).logReturns.length : α)

/-- The function `calibrateFromPriceCurve`: `sigma = sqrt(variance)`, `mu = meanReturn + sigma * sigma / 2`. -/
def calibrateFromPriceCurve (log sqrt : α → α) (priceCurve : List (PricePoint α)) :
    ModelParams α :=
  let sigma := sqrt (variance log priceCurve)
  let mu := meanReturn log priceCurve + (sigma * sigma / 2)
  { mu := mu, sigma := sigma }

/-! ## `parseDate`, `parseCSVOrThrowException` and `calibrate`

The standard-library parsers `std::get_time` and `std::stod` and the file system are
parameters: `get_time` gives the stream state after reading a string with the format
`%Y-%m-%d`, `stod` gives the number a string holds or the exception it throws, and
`fs` gives the text of the file at a path, if the file can be opened. -/

/-- The fields of `std::tm` that `parseDate` reads. -/
structure Tm where
  tm_year : Int
  tm_mon : Int
  tm_mday : Int
deriving DecidableEq, Repr

/-- The outcome of `ss >> std::get_time(&tm, fmt)`: the fields stored in `tm`, and the
`fail()` and `eof()` bits of the stream afterwards. -/
structure GetTimeResult where
  tm : Tm
  fail : Bool
  eof : Bool
deriving DecidableEq, Repr

/-- The conversion of an `int` to the `short` that `std::chrono::year` stores. -/
def toShort (x : Int) : Int :=
  (x + 32768) % 65536 - 32768

/-- The conversion of an `int`, through `unsigned`, to the `unsigned char` that
`std::chrono::month` and `std::chrono::day` store. -/
def toUnsignedChar (x : Int) : Nat :=
  (x % 256).toNat

/-- The function `parseDate`: the string must be read in full by `get_time`, and the
year-month-day it gives must pass `ok()`; both failures throw `std::runtime_error`. -/
def parseDate (get_time : String → GetTimeResult) (dateStr : String) :
    Except Exception YearMonthDay :=
  let r := get_time dateStr
  if r.fail || !r.eof then
    throw ⟨.runtime_error, "Invalid date format. Please follow: YYYY-MM-DD. Got: " ++ dateStr⟩
  else
    let ymd : YearMonthDay :=
      ⟨toShort (r.tm.tm_year + 1900), toUnsignedChar (r.tm.tm_mon + 1),
        toUnsignedChar r.tm.tm_mday⟩
    if !ymd.ok then
      throw ⟨.runtime_error, "Invalid date: " ++ dateStr⟩
    else
      pure ymd

/-- The lines that the loop `while (std::getline(file, line))` reads from the remaining
text, where `cur` holds the characters of the current line read so far: a newline ends
a line, and at the end of the text a last line is read only if it is not empty. -/
def getLines : List Char → List Char → List (List Char)
  | [], cur => if cur.isEmpty then [] else [cur]
  | c :: cs, cur => if c = '\n' then cur :: getLines cs [] else getLines cs (cur ++ [c])

/-- The characters before the first `delim` and, if there is a `delim`, those after it. -/
def splitAtDelim (delim : Char) : List Char → List Char × Option (List Char)
  | [] => ([], none)
  | c :: cs =>
    if c = delim then ([], some cs)
    else ((c :: (splitAtDelim delim cs).1), (splitAtDelim delim cs).2)

/-- The condition `std::getline(ss, dateStr, ',') && std::getline(ss, priceStr)` on a line:
the first read fails on an empty line; the second fails when the first one reached the end
of the line (no comma) or when nothing follows the comma. On success the two fields are the
text before the first comma and all the text after it. -/
def splitFields (line : List Char) : Option (List Char × List Char) :=
  if line.isEmpty then none
  else
    match splitAtDelim ',' line with
    | (_, none) => none
    | (dateStr, some rest) => if rest.isEmpty then none else some (dateStr, rest)

/-- The body of the `try` block for one record: `parseDate(dateStr)`, then
`std::stod(priceStr)`. -/
def parseRecord (get_time : String → GetTimeResult) (stod : String → Except Exception α)
    (dateStr priceStr : List Char) : Except Exception (PricePoint α) :=
  match parseDate get_time (String.mk dateStr) with
  | .error e => .error e
  | .ok date =>
    match stod (String.mk priceStr) with
    | .error e => .error e
    | .ok price => .ok ⟨date, price⟩

/-- The loop of `parseCSVOrThrowException` over the remaining lines, `priceCurve` holding the
records read so far: any exception of a record is caught and rethrown as
`std::runtime_error`, and a line that does not split into two fields throws
`std::runtime_error`. -/
def parseLines (get_time : String → GetTimeResult) (stod : String → Except Exception α) :
    List (List Char) → List (PricePoint α) → Except Exception (List (PricePoint α))
  | [], priceCurve => pure priceCurve
  | line :: rest, priceCurve =>
    match splitFields line with
    | some (dateStr, priceStr) =>
      match parseRecord get_time stod dateStr priceStr with
      | .ok pp => parseLines get_time stod rest (priceCurve ++ [pp])
      | .error e =>
        throw ⟨.runtime_error,
          "Invalid data in line: " ++ String.mk line ++ " (" ++ e.what ++ ")"⟩
    | none => throw ⟨.runtime_error, "Invalid CSV format in line: " ++ String.mk line⟩

/-- The function `parseCSVOrThrowException`: a file that cannot be opened throws
`std::runtime_error`; otherwise every line is parsed into a record. -/
def parseCSVOrThrowException (fs : String → Option String)
    (get_time : String → GetTimeResult) (stod : String → Except Exception α)
    (filename : String) : Except Exception (List (PricePoint α)) :=
  match fs filename with
  | none => throw ⟨.runtime_error, "Unable to open file: " ++ filename⟩
  | some text => parseLines get_time stod (getLines text.toList []) []

/-- The function `calibrate`: parse the file, validate the curve, calibrate; an exception
of any stage propagates unchanged. -/
def calibrate (fs : String → Option String) (get_time : String → GetTimeResult)
    (stod : String → Except Exception α) (log sqrt : α → α) (csvInput : String) :
    Except Exception (ModelParams α) :=
  match parseCSVOrThrowException fs get_time stod csvInput with
  | .error e => .error e
  | .ok priceCurve =>
    match validatePriceCurve priceCurve with
    | .error e => .error e
    | .ok _ => .ok (calibrateFromPriceCurve log sqrt priceCurve)

/-! ## The error taxonomy of the specification -/

/-- The failure the specification calls `InsufficientData`: the exception thrown by the
size check of `validatePriceCurve`. -/
def InsufficientData : Exception :=
  ⟨.invalid_argument, "Need at least 2 price observations"⟩

/-- The failure the specification calls `InvalidPrice`: the exception thrown by the
price check of `validatePriceCurve`. -/
def InvalidPrice : Exception :=
  ⟨.invalid_argument, "All prices must be positive"⟩

/-- The failure the specification calls `UnorderedDates`: the exception thrown by the
date loop of `validatePriceCurve`. -/
def UnorderedDates : Exception :=
  ⟨.invalid_argument, "Dates must be in ascending order"⟩

/-! ## The reference estimator of the specification (section 4.2)

These definitions follow the words of the specification, with sums over the interval
indices `i = 1 .. N-1`; they are compared with `calibrateFromPriceCurve` below. -/

/-- Step 1: `logReturn_i = ln(price_i / price_{i-1})`. -/
def refLogReturn (log : α → α) (curve : List (PricePoint α)) (i : Nat) : α :=
  log ((at_ curve i).price / (at_ curve (i - 1)).price)

/-- Step 1: `dt_i = (date_i − date_{i-1}) in calendar days, divided by 365`. -/
def refDt (curve : List (PricePoint α)) (i : Nat) : α :=
  ((sysDays (at_ curve i).date - sysDays (at_ curve (i - 1)).date : Int) : α) / 365

/-- Steps 2 and 3: `meanReturn = (Σ logReturn_i) / (Σ dt_i)`. -/
def refMeanReturn (log : α → α) (curve : List (PricePoint α)) : α :=
  (∑ i ∈ Finset.Icc 1 (curve.length - 1), refLogReturn log curve i)
    / (∑ i ∈ Finset.Icc 1 (curve.length - 1), refDt curve i)

/-- Step 4: `variance = (1/(N-1)) · Σ_i (logReturn_i − meanReturn · dt_i)² / dt_i`. -/
def refVariance (log : α → α) (curve : List (PricePoint α)) : α :=
  (1 / ((curve.length : α) - 1))
    * ∑ i ∈ Finset.Icc 1 (curve.length - 1),
        (refLogReturn log curve i - refMeanReturn log curve * refDt curve i) ^ 2
          / refDt curve i

/-- Step 5: `sigma = sqrt(variance)`. -/
def refSigma (log sqrt : α → α) (curve : List (PricePoint α)) : α :=
  sqrt (refVariance log curve)

/-- Step 6: `mu = meanReturn + sigma² / 2`. -/
def refMu (log sqrt : α → α) (curve : List (PricePoint α)) : α :=
  refMeanReturn log curve + refSigma log sqrt curve ^ 2 / 2

/-! ## Predicates used in the statements -/

/-- The three preconditions in the words of the specification: at least two observations,
every price strictly positive, every date strictly later than the previous one. -/
def MeetsPreconditions (curve : List (PricePoint α)) : Prop :=
  2 ≤ curve.length ∧ (∀ pp ∈ curve, 0 < pp.price)
    ∧ ∀ i, ∀ h : i < curve.length, 0 < i → curve[i - 1].date.lt curve[i].date = true

/-- Some consecutive pair of the curve has a repeated or decreasing date:
`date_i <= date_{i-1}` for an index `i` with `0 < i < N`. -/
def HasUnorderedPair (curve : List (PricePoint α)) : Prop :=
  ∃ i, ∃ h : i < curve.length, 0 < i ∧ curve[i].date.le curve[i - 1].date = true

/-- The curve with every price multiplied by `c` and the dates unchanged. -/
def scalePrices (c : α) (curve : List (PricePoint α)) : List (PricePoint α) :=
  curve.map (fun pp => ⟨pp.date, c * pp.price⟩)

/-- The curve `stretched` has the prices and the first date of `curve`, and each of its
consecutive day gaps is `k` times the corresponding gap of `curve`. -/
def GapsScaledBy (k : Nat) (curve stretched : List (PricePoint α)) : Prop :=
  stretched.map (fun pp => pp.price) = curve.map (fun pp => pp.price)
    ∧ (at_ stretched 0).date = (at_ curve 0).date
    ∧ ∀ i, 0 < i → i < curve.length →
        sysDays (at_ stretched i).date - sysDays (at_ stretched (i - 1)).date
          = (k : Int) * (sysDays (at_ curve i).date - sysDays (at_ curve (i - 1)).date)

/-- The three running sums of the single-pass estimator: `Σ r_i`, `Σ dt_i` and `Σ r_i²/dt_i`. -/
structure RunningSums (α : Type) where
  sumReturn : α
  sumTime : α
  sumSquares : α

/-- One step (interval `i`) of the single-pass accumulation. -/
def runningStep (log : α → α) (curve : List (PricePoint α)) (s : RunningSums α) (i : Nat) :
    RunningSums α :=
  let r := log ((at_ curve i).price / (at_ curve (i - 1)).price)
  let dt := ((sysDays (at_ curve i).date - sysDays (at_ curve (i - 1)).date : Int) : α) / 365
  { sumReturn := s.sumReturn + r
    sumTime := s.sumTime + dt
    sumSquares := s.sumSquares + r * r / dt }

/-- The single pass over the intervals `i = 1 .. N-1`, keeping only the three sums. -/
def runningSums (log : α → α) (curve : List (PricePoint α)) : RunningSums α :=
  (List.range' 1 (curve.length - 1)).foldl (runningStep log curve) ⟨0, 0, 0⟩

/-- The estimator that keeps only the three running sums: the sum of squared errors is
`Σ r_i²/dt_i − (Σ r_i)² / (Σ dt_i)`, divided by the count `N - 1` of intervals. -/
def calibrateSinglePass (log sqrt : α → α) (curve : List (PricePoint α)) : ModelParams α :=
  let s := runningSums log curve
  let mean := s.sumReturn / s.sumTime
  let sum_error_sq := s.sumSquares - s.sumReturn * s.sumReturn / s.sumTime
  let sigma := sqrt (sum_error_sq / ((curve.length - 1 : Nat) : α))
  { mu := mean + sigma * sigma / 2, sigma := sigma }

/-- The number that a list of decimal digits writes. -/
def digitsValue (ds : List Char) : Nat :=
  ds.foldl (fun n c => 10 * n + (c.toNat - 48)) 0

/-- An instance of the `get_time` parameter for the strict ten-character form `YYYY-MM-DD`
(digits, month 01..12, day 01..31): on such a string `std::get_time` with `%Y-%m-%d` reads
the whole string, stores `tm_year = year - 1900`, `tm_mon = month - 1`, `tm_mday = day` and
leaves the stream at end-of-file without failure. This instance reports failure on every
other string; it is used to evaluate the parser on strings of the strict form only. -/
def isoGetTime (s : String) : GetTimeResult :=
  match s.toList with
  | [y1, y2, y3, y4, s1, m1, m2, s2, d1, d2] =>
    if s1 = '-' ∧ s2 = '-' ∧ [y1, y2, y3, y4, m1, m2, d1, d2].all Char.isDigit
        ∧ 1 ≤ digitsValue [m1, m2] ∧ digitsValue [m1, m2] ≤ 12
        ∧ 1 ≤ digitsValue [d1, d2] ∧ digitsValue [d1, d2] ≤ 31 then
      ⟨⟨(digitsValue [y1, y2, y3, y4] : Int) - 1900, (digitsValue [m1, m2] : Int) - 1,
        (digitsValue [d1, d2] : Int)⟩, false, true⟩
    else ⟨⟨0, 0, 0⟩, true, false⟩
  | _ => ⟨⟨0, 0, 0⟩, true, false⟩

/-- An instance of the `stod` parameter for strings that start with an unsigned decimal
integer not followed by a fraction or an exponent: `std::stod` converts the longest numeric
prefix and ignores what follows it, and throws `std::invalid_argument` when there is no
numeric prefix. It is used to evaluate the parser on such strings only. -/
def decimalStod (s : String) : Except Exception α :=
  if (s.toList.takeWhile Char.isDigit).isEmpty then
    .error ⟨.invalid_argument, "stod"⟩
  else .ok ((digitsValue (s.toList.takeWhile Char.isDigit) : Nat) : α)

/-- The type `struct TestCase` of `test_gbm.cpp`. -/
structure TestCase (α : Type) where
  name : String
  csvFile : String
  expectSuccess : Bool
  expectedMu : Option α
  expectedSigma : Option α

/-- The ways a call of `executeTestCase` ends: it prints `PASS` and returns, an `assert`
fails and aborts the program, or the exception of `calibrate` is thrown again. -/
inductive TestOutcome where
  | pass
  | assertFailed
  | rethrown (e : Exception)
deriving DecidableEq, Repr

/-- The test `diff >= 1e-5` of `executeTestCase`, where
`diff = std::abs(value - expected) / expected`: the divisor is `expected` itself, not its
absolute value. For `expected = 0` the `double` quotient is `+infinity` when `value` is
not zero, and NaN, which compares false, when it is zero. -/
def toleranceExceeded (value expected : α) : Bool :=
  if expected = 0 then decide (value ≠ 0)
  else decide (|value - expected| / expected ≥ 1 / 100000)

/-- The function `executeTestCase`: calibrate the file of the test case, then compare with
the expectation. The first `assert` is `params.sigma >= 0` (no NaN arises in exact
arithmetic); asserts are taken as enabled. -/
def executeTestCase (fs : String → Option String) (get_time : String → GetTimeResult)
    (stod : String → Except Exception α) (log sqrt : α → α) (test : TestCase α) :
    TestOutcome :=
  match calibrate fs get_time stod log sqrt test.csvFile with
  | .ok params =>
    if test.expectSuccess then
      if !decide (params.sigma ≥ 0) then .assertFailed
      else if (match test.expectedMu with
          | some expected => toleranceExceeded params.mu expected
          | none => false) then .assertFailed
      else if (match test.expectedSigma with
          | some expected => toleranceExceeded params.sigma expected
          | none => false) then .assertFailed
      else .pass
    else .assertFailed
  | .error e => if test.expectSuccess then .rethrown e else .pass

/-! ## Doubles with overflow and NaN

The estimator once more, on `double` values that can overflow to an infinity or become NaN,
to evaluate `calibrateFromPriceCurve` on prices of extreme magnitude. -/

/-- A value of type `double` with its special values: a finite number, an infinity or NaN.
Rounding and the sign of zero are not modelled: a result inside the finite range is kept
exact, and a zero divisor counts as `+0`. -/
inductive Double (α : Type) where
  | finite (x : α)
  | posInf
  | negInf
  | nan

/-- The magnitude `2^1024 - 2^970` from which a result rounds to an infinity: the largest
finite `double` is `2^1024 - 2^971`, half a unit in the last place below it. -/
def overflowBound : α :=
  2 ^ 1024 - 2 ^ 970

/-- The `double` that an exact result becomes: an infinity when it overflows. -/
def Double.ofExact (x : α) : Double α :=
  if x ≥ overflowBound then .posInf
  else if x ≤ -overflowBound then .negInf
  else .finite x

/-- The sum of two doubles; `inf + (-inf)` is NaN. -/
def Double.add : Double α → Double α → Double α
  | .nan, _ => .nan
  | .finite a, .finite b => Double.ofExact (a + b)
  | .finite _, y => y
  | .posInf, .nan => .nan
  | .posInf, .negInf => .nan
  | .posInf, _ => .posInf
  | .negInf, .nan => .nan
  | .negInf, .posInf => .nan
  | .negInf, _ => .negInf

/-- The difference of two doubles; `inf - inf` is NaN. -/
def Double.sub : Double α → Double α → Double α
  | .nan, _ => .nan
  | .finite a, .finite b => Double.ofExact (a - b)
  | .finite _, .posInf => .negInf
  | .finite _, .negInf => .posInf
  | .finite _, .nan => .nan
  | .posInf, .nan => .nan
  | .posInf, .posInf => .nan
  | .posInf, _ => .posInf
  | .negInf, .nan => .nan
  | .negInf, .negInf => .nan
  | .negInf, _ => .negInf

/-- An infinity with the sign of `s`, or NaN when `s` is zero (`inf * 0`). -/
def Double.signedInf (s : α) : Double α :=
  if s = 0 then .nan else if s > 0 then .posInf else .negInf

/-- The product of two doubles; `inf * 0` is NaN. -/
def Double.mul : Double α → Double α → Double α
  | .nan, _ => .nan
  | _, .nan => .nan
  | .finite a, .finite b => Double.ofExact (a * b)
  | .finite a, .posInf => Double.signedInf a
  | .finite a, .negInf => Double.signedInf (-a)
  | .posInf, .finite b => Double.signedInf b
  | .negInf, .finite b => Double.signedInf (-b)
  | .posInf, .posInf => .posInf
  | .posInf, .negInf => .negInf
  | .negInf, .posInf => .negInf
  | .negInf, .negInf => .posInf

/-- The quotient of two doubles; `inf / inf` and `0 / 0` are NaN, a nonzero number over
zero is an infinity, a finite number over an infinity is zero. -/
def Double.div : Double α → Double α → Double α
  | .nan, _ => .nan
  | _, .nan => .nan
  | .finite a, .finite b => if b = 0 then Double.signedInf a else Double.ofExact (a / b)
  | .finite _, .posInf => .finite 0
  | .finite _, .negInf => .finite 0
  | .posInf, .finite b => if b ≥ 0 then .posInf else .negInf
  | .negInf, .finite b => if b ≥ 0 then .negInf else .posInf
  | .posInf, .posInf => .nan
  | .posInf, .negInf => .nan
  | .negInf, .posInf => .nan
  | .negInf, .negInf => .nan

instance : Add (Double α) := ⟨Double.add⟩

instance : Sub (Double α) := ⟨Double.sub⟩

instance : Mul (Double α) := ⟨Double.mul⟩

instance : Div (Double α) := ⟨Double.div⟩

/-- The function `std::log` on doubles: NaN below zero, `-inf` at zero, `inf` at `inf`. -/
def Double.log (log : α → α) : Double α → Double α
  | .finite x => if x < 0 then .nan else if x = 0 then .negInf else .finite (log x)
  | .posInf => .posInf
  | .negInf => .nan
  | .nan => .nan

/-- The function `std::sqrt` on doubles: NaN below zero, `inf` at `inf`. -/
def Double.sqrt (sqrt : α → α) : Double α → Double α
  | .finite x => if x < 0 then .nan else .finite (sqrt x)
  | .posInf => .posInf
  | .negInf => .nan
  | .nan => .nan

/-- The comparison `x >= 0` on doubles: false for NaN. -/
def Double.geZero : Double α → Bool
  | .finite x => decide (x ≥ 0)
  | .posInf => true
  | .negInf => false
  | .nan => false

/-- The local variables of the first loop of `calibrateFromPriceCurve`, as doubles. -/
structure AccumDouble (α : Type) where
  logReturns : List (Double α)
  timeDeltas : List (Double α)
  totalLogReturn : Double α
  totalTime : Double α

/-- One iteration (index `i`) of the first loop of `calibrateFromPriceCurve`, on doubles;
the prices of the curve are finite doubles. -/
def accumStepDouble (log : α → α) (priceCurve : List (PricePoint α)) (s : AccumDouble α)
    (i : Nat) : AccumDouble α :=
  let logReturn := Double.log log
    (Double.finite (at_ priceCurve i).price / Double.finite (at_ priceCurve (i - 1)).price)
  let sys_days1 := sysDays (at_ priceCurve (i - 1)).date
  let sys_days2 := sysDays (at_ priceCurve i).date
  let days : Double α := Double.finite ((sys_days2 - sys_days1 : Int) : α)
  let dt := days / Double.finite DAYS_PER_YEAR
  { logReturns := s.logReturns ++ [logReturn]
    timeDeltas := s.timeDeltas ++ [days / Double.finite DAYS_PER_YEAR]
    totalLogReturn := s.totalLogReturn + logReturn
    totalTime := s.totalTime + dt }

/-- The first loop of `calibrateFromPriceCurve`, on doubles. -/
def accumulateDouble (log : α → α) (priceCurve : List (PricePoint α)) : AccumDouble α :=
  (List.range' 1 (priceCurve.length - 1)).foldl (accumStepDouble log priceCurve)
    ⟨[], [], Double.finite 0, Double.finite 0⟩

/-- One iteration (index `i`) of the second loop of `calibrateFromPriceCurve`, on doubles. -/
def errorStepDouble (logReturns timeDeltas : List (Double α)) (mean : Double α)
    (sum_error_sq : Double α) (i : Nat) : Double α :=
  let error := logReturns.getD i (Double.finite 0) - mean * timeDeltas.getD i (Double.finite 0)
  sum_error_sq + error * error / timeDeltas.getD i (Double.finite 0)

/-- The function `calibrateFromPriceCurve` on doubles with overflow and NaN, for a curve of
finite prices: the same two loops, mean, variance, `sigma` and `mu` as in
`calibrateFromPriceCurve`, each operation giving its special value where it has one. -/
def calibrateFromPriceCurveDouble (log sqrt : α → α) (priceCurve : List (PricePoint α)) :
    ModelParams (Double α) :=
  let s := accumulateDouble log priceCurve
  let meanReturn := s.totalLogReturn / s.totalTime
  let sum_error_sq := (List.range s.logReturns.length).foldl
    (errorStepDouble s.logReturns s.timeDeltas meanReturn) (Double.finite 0)
  let variance := sum_error_sq / Double.finite ((s.logReturns.length : Nat) : α)
  let sigma := Double.sqrt sqrt variance
  let mu := meanReturn + (sigma * sigma / Double.finite 2)
  { mu := mu, sigma := sigma }

/-! ## Auxiliary definitions for the calendar proofs -/

/-- The day count of March 1 of year `y`, up to the constant epoch shift: the part of
`sysDays` that depends on the March-based year only. -/
def yearStart (y : Int) : Int :=
  (y / 400) * 146097 + ((y - (y / 400) * 400) * 365 + (y - (y / 400) * 400) / 4
    - (y - (y / 400) * 400) / 100)

/-- The year of the March-based calendar that the date falls in. -/
def shiftedYear (d : YearMonthDay) : Int :=
  if d.month ≤ 2 then d.year - 1 else d.year

/-- The month index of the March-based calendar: March is 0, February is 11. -/
def shiftedMonth (d : YearMonthDay) : Int :=
  if d.month > 2 then (d.month : Int) - 3 else (d.month : Int) + 9

/-- The calendar day after `d`: the next day of the month, else the first day of the next
month, else January 1 of the next year. -/
def nextDay (d : YearMonthDay) : YearMonthDay :=
  if d.day < lastDayOfMonth d.year d.month then ⟨d.year, d.month, d.day + 1⟩
  else if d.month < 12 then ⟨d.year, d.month + 1, 1⟩
  else ⟨d.year + 1, 1, 1⟩

/-! ## Auxiliary definitions for the estimator proofs -/

/-- The squared, time-rescaled deviation that the second loop adds for interval `i`. -/
def errorTerm (log : α → α) (curve : List (PricePoint α)) (mean : α) (i : Nat) : α :=
  (refLogReturn log curve i - mean * refDt curve i)
    * (refLogReturn log curve i - mean * refDt curve i) / refDt curve i

/-! ## Calendar lemmas -/

/-- The day count starts at the epoch 1970-01-01. -/
theorem sysDays_epoch : sysDays ⟨1970, 1, 1⟩ = 0 := by decide

/-- The leap day of 2000 lies one day before March 1, and 2020 has 366 days. -/
theorem sysDays_samples :
    sysDays ⟨2000, 3, 1⟩ - sysDays ⟨2000, 2, 29⟩ = 1
      ∧ sysDays ⟨1900, 3, 1⟩ - sysDays ⟨1900, 2, 28⟩ = 1
      ∧ sysDays ⟨2021, 1, 1⟩ - sysDays ⟨2020, 1, 1⟩ = 366 := by decide

theorem yearStart_succ (y : Int) :
    yearStart (y + 1) = yearStart y + 365 + (if is_leap (y + 1) = true then 1 else 0) := by
  simp only [yearStart, is_leap, Bool.and_eq_true, Bool.or_eq_true, beq_iff_eq, bne_iff_ne, ne_eq]
  split <;> omega

theorem yearStart_mono (a : Int) (k : Nat) : yearStart a ≤ yearStart (a + k) := by
  induction k with
  | zero => simp
  | succ n ih =>
    have := yearStart_succ (a + n)
    have e : a + ((n + 1 : Nat) : Int) = a + n + 1 := by push_cast; ring
    rw [e]
    split at this <;> omega

theorem yearStart_lt (u v : Int) (h : u < v) :
    yearStart u + 365 + (if is_leap (u + 1) = true then 1 else 0) ≤ yearStart v := by
  obtain ⟨k, rfl⟩ : ∃ k : Nat, v = u + 1 + k := ⟨(v - (u + 1)).toNat, by omega⟩
  have := yearStart_mono (u + 1) k
  rw [yearStart_succ] at this
  exact this

theorem sysDays_eq (d : YearMonthDay) :
    sysDays d = yearStart (shiftedYear d)
      + ((153 * shiftedMonth d + 2) / 5 + (d.day : Int) - 1) - 719468 := by
  simp only [sysDays, yearStart, shiftedYear, shiftedMonth]
  ring

theorem ok_bounds (d : YearMonthDay) (hd : d.ok = true) :
    1 ≤ d.month ∧ d.month ≤ 12 ∧ 1 ≤ d.day
      ∧ (shiftedMonth d ≤ 10 →
          (153 * shiftedMonth d + 2) / 5 + (d.day : Int) ≤ (153 * (shiftedMonth d + 1) + 2) / 5)
      ∧ (153 * shiftedMonth d + 2) / 5 + (d.day : Int) - 1
          ≤ 364 + (if is_leap (shiftedYear d + 1) = true then 1 else 0) := by
  obtain ⟨y, m, dd⟩ := d
  simp only [YearMonthDay.ok, Bool.and_eq_true, decide_eq_true_eq] at hd
  obtain ⟨⟨⟨⟨⟨_, _⟩, h1⟩, h2⟩, h3⟩, h4⟩ := hd
  simp only [shiftedMonth, shiftedYear]
  refine ⟨h1, h2, h3, ?_⟩
  interval_cases m <;> simp [lastDayOfMonth] at h4 ⊢ <;> (try split at h4) <;> (try split) <;>
    omega

/-- On real calendar dates the lexicographic order of `year_month_day` agrees with the
day count: a strictly later date is at least one day later. -/
theorem sysDays_lt_of_lt (a b : YearMonthDay) (ha : a.ok = true) (hb : b.ok = true)
    (h : a.lt b = true) : sysDays a + 1 ≤ sysDays b := by
  obtain ⟨a1, a2, a3, a4, a5⟩ := ok_bounds a ha
  obtain ⟨b1, b2, b3, b4, b5⟩ := ok_bounds b hb
  rw [sysDays_eq, sysDays_eq]
  have hlex : shiftedYear a < shiftedYear b ∨ (shiftedYear a = shiftedYear b ∧
      (shiftedMonth a < shiftedMonth b ∨ (shiftedMonth a = shiftedMonth b ∧ a.day < b.day))) := by
    simp only [YearMonthDay.lt, bne_iff_ne, ne_eq, ite_not] at h
    simp only [shiftedYear, shiftedMonth]
    split at h
    · split at h
      · simp only [decide_eq_true_eq] at h
        split <;> split <;> omega
      · simp only [decide_eq_true_eq] at h
        split <;> split <;> omega
    · simp only [decide_eq_true_eq] at h
      split <;> split <;> omega
  rcases hlex with hy | ⟨hy, hm | ⟨hm, hd⟩⟩
  · have key := yearStart_lt _ _ hy
    have : 0 ≤ (153 * shiftedMonth b + 2) / 5 := by
      have : 0 ≤ shiftedMonth b := by simp only [shiftedMonth]; split <;> omega
      omega
    omega
  · rw [hy]
    have : shiftedMonth a ≤ 10 := by
      have : shiftedMonth b ≤ 11 := by simp only [shiftedMonth]; split <;> omega
      omega
    have := a4 this
    omega
  · rw [hy, hm]
    omega

/-- The day count advances by exactly one from each real calendar date to the next day:
together with `sysDays_epoch` this says that `sysDays` counts calendar days. -/
theorem sysDays_nextDay (d : YearMonthDay) (hd : d.ok = true) :
    sysDays (nextDay d) = sysDays d + 1 := by
  obtain ⟨y, m, dd⟩ := d
  simp only [YearMonthDay.ok, Bool.and_eq_true, decide_eq_true_eq] at hd
  obtain ⟨⟨⟨⟨⟨_, _⟩, h1⟩, h2⟩, h3⟩, h4⟩ := hd
  have hs := yearStart_succ (y - 1)
  rw [sub_add_cancel] at hs
  unfold nextDay
  simp only []
  split
  · simp only [sysDays]
    omega
  · rename_i hlast
    have hlast' : dd = lastDayOfMonth y m := by omega
    rw [sysDays_eq, sysDays_eq]
    simp only [shiftedYear, shiftedMonth]
    unfold lastDayOfMonth at hlast'
    interval_cases m <;>
      simp only [Nat.reduceLeDiff, Nat.reduceAdd, Nat.reduceLT, Nat.reduceBEq, Nat.reduceBNe,
        Nat.lt_irrefl, gt_iff_lt, ite_true, ite_false, if_true, if_false, Nat.cast_ofNat,
        Nat.cast_one, Bool.or_self, Bool.or_false, Bool.or_true, Bool.false_eq_true,
        add_sub_cancel_right, reduceIte] at hlast' ⊢ <;>
      (try split at hlast') <;> (try split at hs) <;>
      first | omega | (rename_i hn hp; exact absurd hp hn)

/-- The two comparison operators are complementary: `b <= a` is false exactly when `a < b`. -/
theorem le_eq_not_lt (a b : YearMonthDay) : b.le a = !(a.lt b) := by
  simp only [YearMonthDay.le, YearMonthDay.lt, bne_iff_ne, ne_eq, ite_not]
  by_cases h1 : b.year = a.year
  · by_cases h2 : b.month = a.month
    · simp only [h1, h2, if_true]
      rw [Bool.eq_not_iff, ne_eq, decide_eq_decide]
      omega
    · have h2' : ¬ a.month = b.month := fun h => h2 h.symm
      simp only [h1, h2, h2', if_true, if_false]
      rw [Bool.eq_not_iff, ne_eq, decide_eq_decide]
      omega
  · have h1' : ¬ a.year = b.year := fun h => h1 h.symm
    simp only [h1, h1', if_false]
    rw [Bool.eq_not_iff, ne_eq, decide_eq_decide]
    omega

/-! ## The validator -/

theorem at__eq_getElem (curve : List (PricePoint α)) (i : Nat) (h : i < curve.length) :
    at_ curve i = curve[i] := by
  simp [at_, List.getD_eq_getElem?_getD, List.getElem?_eq_getElem h]

theorem checkDates_eq (curve : List (PricePoint α)) (is : List Nat) :
    checkDates curve is =
      if is.any (fun i => (at_ curve i).date.le (at_ curve (i - 1)).date) = true
      then Except.error UnorderedDates else Except.ok () := by
  induction is with
  | nil => rfl
  | cons i rest ih =>
    simp only [checkDates, List.any_cons, Bool.or_eq_true]
    by_cases h : (at_ curve i).date.le (at_ curve (i - 1)).date = true
    · simp [h]; rfl
    · rw [Bool.not_eq_true] at h
      simp only [h, Bool.false_eq_true, if_false, false_or]
      exact ih

theorem validatePriceCurve_eq (curve : List (PricePoint α)) :
    validatePriceCurve curve =
      if curve.length < 2 then Except.error InsufficientData
      else if (curve.all (fun pp => decide (pp.price > 0))) = false then Except.error InvalidPrice
      else if (List.range' 1 (curve.length - 1)).any
          (fun i => (at_ curve i).date.le (at_ curve (i - 1)).date) = true
        then Except.error UnorderedDates
      else Except.ok () := by
  unfold validatePriceCurve
  split
  · rfl
  · split
    · rename_i h
      simp only [Bool.not_eq_true', ] at h
      rw [if_pos h]; rfl
    · rename_i h
      simp only [Bool.not_eq_true', Bool.not_eq_false] at h
      rw [if_neg (by simp [h])]
      exact checkDates_eq _ _

/-- Some consecutive pair is out of order: `date_i <= date_{i-1}` for an index `i` of the curve. -/
theorem any_unordered_iff (curve : List (PricePoint α)) :
    (List.range' 1 (curve.length - 1)).any
        (fun i => (at_ curve i).date.le (at_ curve (i - 1)).date) = true
      ↔ ∃ i, ∃ h : i < curve.length, 0 < i ∧ curve[i].date.le curve[i - 1].date = true := by
  simp only [List.any_eq_true, List.mem_range']
  constructor
  · rintro ⟨i, ⟨k, hk, rfl⟩, h⟩
    rw [one_mul] at h
    have h1 : 1 + k < curve.length := by omega
    refine ⟨1 + k, h1, by omega, ?_⟩
    rw [at__eq_getElem _ _ h1, at__eq_getElem _ _ (by omega)] at h
    exact h
  · rintro ⟨i, h, hi, hle⟩
    refine ⟨i, ⟨i - 1, by omega, by omega⟩, ?_⟩
    rw [at__eq_getElem _ _ h, at__eq_getElem _ _ (by omega)]
    exact hle

theorem all_prices_iff (curve : List (PricePoint α)) :
    curve.all (fun pp => decide (pp.price > 0)) = true ↔ ∀ pp ∈ curve, 0 < pp.price := by
  simp [List.all_eq_true]

theorem not_hasUnorderedPair_iff (curve : List (PricePoint α)) :
    ¬ HasUnorderedPair curve ↔
      ∀ i, ∀ h : i < curve.length, 0 < i → curve[i - 1].date.lt curve[i].date = true := by
  unfold HasUnorderedPair
  constructor
  · intro hno i h hi
    by_contra hc
    apply hno
    refine ⟨i, h, hi, ?_⟩
    rw [le_eq_not_lt]
    simpa using hc
  · rintro hall ⟨i, h, hi, hle⟩
    have := hall i h hi
    rw [le_eq_not_lt, this] at hle
    simp at hle

theorem validate_of_short (curve : List (PricePoint α)) (h : curve.length < 2) :
    validatePriceCurve curve = Except.error InsufficientData := by
  rw [validatePriceCurve_eq, if_pos h]

theorem validate_of_bad_price (curve : List (PricePoint α)) (h : 2 ≤ curve.length)
    (hp : ¬ ∀ pp ∈ curve, 0 < pp.price) :
    validatePriceCurve curve = Except.error InvalidPrice := by
  have hp' : curve.all (fun pp => decide (pp.price > 0)) = false := by
    rw [← Bool.not_eq_true]
    exact fun h => hp ((all_prices_iff curve).1 h)
  rw [validatePriceCurve_eq, if_neg (by omega), if_pos hp']

theorem validate_of_unordered (curve : List (PricePoint α)) (h : 2 ≤ curve.length)
    (hp : ∀ pp ∈ curve, 0 < pp.price) (hd : HasUnorderedPair curve) :
    validatePriceCurve curve = Except.error UnorderedDates := by
  have hp' := (all_prices_iff curve).2 hp
  rw [validatePriceCurve_eq, if_neg (by omega), if_neg (by simp [hp']),
    if_pos ((any_unordered_iff curve).2 hd)]

theorem validate_of_meets (curve : List (PricePoint α)) (h : MeetsPreconditions curve) :
    validatePriceCurve curve = Except.ok () := by
  obtain ⟨h1, hp, hd⟩ := h
  have hp' := (all_prices_iff curve).2 hp
  rw [validatePriceCurve_eq, if_neg (by omega), if_neg (by simp [hp']),
    if_neg (fun h => (not_hasUnorderedPair_iff curve).2 hd ((any_unordered_iff curve).1 h))]

theorem meets_of_validate (curve : List (PricePoint α))
    (h : validatePriceCurve curve = Except.ok ()) : MeetsPreconditions curve := by
  have h1 : 2 ≤ curve.length := by
    by_contra hc
    rw [validate_of_short curve (by omega)] at h
    cases h
  have h2 : ∀ pp ∈ curve, 0 < pp.price := by
    by_contra hc
    rw [validate_of_bad_price curve h1 hc] at h
    cases h
  have h3 : ¬ HasUnorderedPair curve := by
    intro hc
    rw [validate_of_unordered curve h1 h2 hc] at h
    cases h
  exact ⟨h1, h2, (not_hasUnorderedPair_iff curve).1 h3⟩

/-- C2: `validatePriceCurve` returns without error if and only if the curve has at least two
observations, every price is strictly positive and every date is strictly later than the
previous one; in every other case it fails with an exception. -/
theorem validatePriceCurve_ok_iff (curve : List (PricePoint α)) :
    (validatePriceCurve curve = Except.ok () ↔ MeetsPreconditions curve)
      ∧ (¬ MeetsPreconditions curve → ∃ e, validatePriceCurve curve = Except.error e) := by
  refine ⟨⟨meets_of_validate curve, validate_of_meets curve⟩, fun hno => ?_⟩
  cases hv : validatePriceCurve curve with
  | error e => exact ⟨e, rfl⟩
  | ok u => exact absurd (meets_of_validate curve hv) hno

/-- C2, at a concrete curve: the one-observation curve does not meet the preconditions and
is rejected. -/
theorem validatePriceCurve_ok_iff_witness :
    ∃ e, validatePriceCurve ([⟨⟨2020, 1, 1⟩, 100⟩] : List (PricePoint ℝ)) = Except.error e :=
  (validatePriceCurve_ok_iff ([⟨⟨2020, 1, 1⟩, 100⟩] : List (PricePoint ℝ))).2
    (fun h => absurd h.1 (by simp))

/-- C3: the first violated precondition is reported, in the order size, prices, dates:
a curve with fewer than two observations fails with `InsufficientData` whatever it holds;
a curve with at least two observations and a price `<= 0` fails with `InvalidPrice`
whatever its dates; `UnorderedDates` is reported only if the size and all prices are valid. -/
theorem validatePriceCurve_error_order :
    (∀ curve : List (PricePoint α), curve.length < 2 →
        validatePriceCurve curve = Except.error InsufficientData)
    ∧ (∀ curve : List (PricePoint α), 2 ≤ curve.length → (∃ pp ∈ curve, pp.price ≤ 0) →
        validatePriceCurve curve = Except.error InvalidPrice)
    ∧ (∀ curve : List (PricePoint α), validatePriceCurve curve = Except.error UnorderedDates →
        2 ≤ curve.length ∧ (∀ pp ∈ curve, 0 < pp.price) ∧ HasUnorderedPair curve) := by
  refine ⟨validate_of_short, ?_, ?_⟩
  · rintro curve h ⟨pp, hmem, hle⟩
    exact validate_of_bad_price curve h (fun hall => absurd (hall pp hmem) (not_lt.2 hle))
  · intro curve hv
    have h1 : 2 ≤ curve.length := by
      by_contra hc
      rw [validate_of_short curve (by omega)] at hv
      simp [InsufficientData, UnorderedDates] at hv
    have h2 : ∀ pp ∈ curve, 0 < pp.price := by
      by_contra hc
      rw [validate_of_bad_price curve h1 hc] at hv
      simp [InvalidPrice, UnorderedDates] at hv
    refine ⟨h1, h2, ?_⟩
    by_contra hc
    rw [validate_of_meets curve ⟨h1, h2, (not_hasUnorderedPair_iff curve).1 hc⟩] at hv
    cases hv

/-- C3, at concrete curves: a single observation with a negative price reports
`InsufficientData`; two observations with a negative price and decreasing dates report
`InvalidPrice`; and the curve that reports `UnorderedDates` has valid size and prices. -/
theorem validatePriceCurve_error_order_witness :
    validatePriceCurve ([⟨⟨2020, 1, 1⟩, -5⟩] : List (PricePoint ℝ)) = Except.error InsufficientData
    ∧ validatePriceCurve ([⟨⟨2020, 1, 2⟩, 100⟩, ⟨⟨2020, 1, 1⟩, -5⟩] : List (PricePoint ℝ))
        = Except.error InvalidPrice
    ∧ (2 ≤ ([⟨⟨2020, 1, 2⟩, 100⟩, ⟨⟨2020, 1, 1⟩, 101⟩] : List (PricePoint ℝ)).length
        ∧ (∀ pp ∈ ([⟨⟨2020, 1, 2⟩, 100⟩, ⟨⟨2020, 1, 1⟩, 101⟩] : List (PricePoint ℝ)), 0 < pp.price)
        ∧ HasUnorderedPair ([⟨⟨2020, 1, 2⟩, 100⟩, ⟨⟨2020, 1, 1⟩, 101⟩] : List (PricePoint ℝ))) :=
  ⟨validatePriceCurve_error_order.1 _ (by simp),
   validatePriceCurve_error_order.2.1 _ (by simp)
     ⟨⟨⟨2020, 1, 1⟩, -5⟩, by simp, by norm_num⟩,
   validatePriceCurve_error_order.2.2 _ (by
     rw [validatePriceCurve_eq]
     simp [List.range', at_, YearMonthDay.le])⟩

/-- C4 fails as stated: the curve `[(2020-01-01, 100), (2020-01-01, -5)]` repeats a date,
yet it fails with `InvalidPrice`, not with `UnorderedDates`. -/
theorem unordered_not_always_UnorderedDates :
    HasUnorderedPair ([⟨⟨2020, 1, 1⟩, 100⟩, ⟨⟨2020, 1, 1⟩, -5⟩] : List (PricePoint ℝ))
    ∧ validatePriceCurve ([⟨⟨2020, 1, 1⟩, 100⟩, ⟨⟨2020, 1, 1⟩, -5⟩] : List (PricePoint ℝ))
        = Except.error InvalidPrice
    ∧ validatePriceCurve ([⟨⟨2020, 1, 1⟩, 100⟩, ⟨⟨2020, 1, 1⟩, -5⟩] : List (PricePoint ℝ))
        ≠ Except.error UnorderedDates := by
  have h : validatePriceCurve ([⟨⟨2020, 1, 1⟩, 100⟩, ⟨⟨2020, 1, 1⟩, -5⟩] : List (PricePoint ℝ))
      = Except.error InvalidPrice := by
    rw [validatePriceCurve_eq]
    norm_num
  refine ⟨⟨1, by simp, by omega, by decide⟩, h, ?_⟩
  rw [h]
  simp [InvalidPrice, UnorderedDates]

/-- C4, amended: a curve with a repeated or decreasing date is never accepted; it fails with
`UnorderedDates` when all its prices are positive, and with `InvalidPrice` when some price
is not positive. -/
theorem validatePriceCurve_unordered (curve : List (PricePoint α))
    (h : HasUnorderedPair curve) :
    validatePriceCurve curve ≠ Except.ok ()
    ∧ ((∀ pp ∈ curve, 0 < pp.price) → validatePriceCurve curve = Except.error UnorderedDates)
    ∧ ((∃ pp ∈ curve, pp.price ≤ 0) → validatePriceCurve curve = Except.error InvalidPrice) := by
  have h1 : 2 ≤ curve.length := by
    obtain ⟨i, hi, hpos, _⟩ := h
    omega
  refine ⟨fun hv => ?_, fun hp => validate_of_unordered curve h1 hp h, ?_⟩
  · exact (not_hasUnorderedPair_iff curve).2 (meets_of_validate curve hv).2.2 h
  · rintro ⟨pp, hmem, hle⟩
    exact validate_of_bad_price curve h1 (fun hall => absurd (hall pp hmem) (not_lt.2 hle))

/-- C4 amended, at the duplicate-date curve `[(2020-01-01, 100), (2020-01-01, 101)]`:
it is rejected with `UnorderedDates`. -/
theorem validatePriceCurve_unordered_witness :
    validatePriceCurve ([⟨⟨2020, 1, 1⟩, 100⟩, ⟨⟨2020, 1, 1⟩, 101⟩] : List (PricePoint ℝ))
      = Except.error UnorderedDates :=
  (validatePriceCurve_unordered ([⟨⟨2020, 1, 1⟩, 100⟩, ⟨⟨2020, 1, 1⟩, 101⟩] : List (PricePoint ℝ))
    ⟨1, by simp, by omega, by decide⟩).2.1 (by simp)

/-! ## The estimator -/

theorem foldl_accumStep (log : α → α) (curve : List (PricePoint α)) (is : List Nat)
    (s : Accum α) :
    is.foldl (accumStep log curve) s =
      { logReturns := s.logReturns ++ is.map (refLogReturn log curve)
        timeDeltas := s.timeDeltas ++ is.map (refDt curve)
        totalLogReturn := s.totalLogReturn + (is.map (refLogReturn log curve)).sum
        totalTime := s.totalTime + (is.map (refDt curve)).sum } := by
  induction is generalizing s with
  | nil => simp
  | cons i rest ih =>
    rw [List.foldl_cons, ih]
    simp [accumStep, refLogReturn, refDt, DAYS_PER_YEAR, add_assoc]

theorem accumulate_eq (log : α → α) (curve : List (PricePoint α)) :
    accumulate log curve =
      { logReturns := (List.range' 1 (curve.length - 1)).map (refLogReturn log curve)
        timeDeltas := (List.range' 1 (curve.length - 1)).map (refDt curve)
        totalLogReturn := ((List.range' 1 (curve.length - 1)).map (refLogReturn log curve)).sum
        totalTime := ((List.range' 1 (curve.length - 1)).map (refDt curve)).sum } := by
  unfold accumulate
  rw [foldl_accumStep]
  simp

theorem foldl_errorStep (lr td : List α) (mean : α) (is : List Nat) (acc : α) :
    is.foldl (errorStep lr td mean) acc =
      acc + (is.map (fun i =>
        (lr.getD i 0 - mean * td.getD i 0) * (lr.getD i 0 - mean * td.getD i 0)
          / td.getD i 0)).sum := by
  induction is generalizing acc with
  | nil => simp
  | cons i rest ih =>
    rw [List.foldl_cons, ih]
    simp [errorStep, add_assoc]

theorem sum_map_range' (f : Nat → α) (k : Nat) :
    ((List.range' 1 k).map f).sum = ∑ i ∈ Finset.Icc 1 k, f i := by
  induction k with
  | zero => simp
  | succ n ih =>
    rw [List.range'_concat, List.map_append, List.sum_append, ih,
      Finset.sum_Icc_succ_top (by omega)]
    simp [add_comm]

theorem getD_map_range' (f : Nat → α) (k i : Nat) (h : i < k) :
    ((List.range' 1 k).map f).getD i 0 = f (1 + i) := by
  simp [List.getD_eq_getElem?_getD, List.getElem?_map, List.getElem?_range', h]

theorem sumErrorSq_eq (log : α → α) (curve : List (PricePoint α)) :
    sumErrorSq log curve =
      ∑ i ∈ Finset.Icc 1 (curve.length - 1), errorTerm log curve (meanReturn log curve) i := by
  unfold sumErrorSq
  simp only []
  rw [foldl_errorStep, zero_add, accumulate_eq]
  simp only [List.length_map, List.length_range']
  have hterm : ∀ i ∈ List.range (curve.length - 1),
      (((List.range' 1 (curve.length - 1)).map (refLogReturn log curve)).getD i 0
          - meanReturn log curve * ((List.range' 1 (curve.length - 1)).map (refDt curve)).getD i 0)
        * (((List.range' 1 (curve.length - 1)).map (refLogReturn log curve)).getD i 0
          - meanReturn log curve * ((List.range' 1 (curve.length - 1)).map (refDt curve)).getD i 0)
        / ((List.range' 1 (curve.length - 1)).map (refDt curve)).getD i 0
      = (errorTerm log curve (meanReturn log curve) ∘ fun x => 1 + x) i := by
    intro i hi
    rw [List.mem_range] at hi
    rw [getD_map_range' _ _ _ hi, getD_map_range' _ _ _ hi]
    rfl
  rw [List.map_congr_left hterm, ← List.map_map, ← List.range'_eq_map_range, sum_map_range']

theorem meanReturn_eq (log : α → α) (curve : List (PricePoint α)) :
    meanReturn log curve = refMeanReturn log curve := by
  unfold meanReturn refMeanReturn
  rw [accumulate_eq]
  simp only [sum_map_range']

theorem logReturns_length (log : α → α) (curve : List (PricePoint α)) :
    (accumulate log curve).logReturns.length = curve.length - 1 := by
  rw [accumulate_eq]
  simp

theorem variance_eq (log : α → α) (curve : List (PricePoint α)) (h : 1 ≤ curve.length) :
    variance log curve = refVariance log curve := by
  unfold variance refVariance
  rw [sumErrorSq_eq, logReturns_length, meanReturn_eq, Nat.cast_sub h, Nat.cast_one,
    div_eq_inv_mul, one_div]
  congr 1
  apply Finset.sum_congr rfl
  intro i _
  simp only [errorTerm]
  rw [pow_two]

/-- C1: for every curve accepted by `validatePriceCurve`, `calibrateFromPriceCurve` over the
reals returns the reference estimator of the specification: `meanReturn = (Σ r_i)/(Σ dt_i)`,
`variance = (1/(N-1)) Σ (r_i − meanReturn·dt_i)²/dt_i`, `sigma = sqrt(variance)` and
`mu = meanReturn + sigma²/2`. -/
theorem calibrateFromPriceCurve_eq_reference (curve : List (PricePoint ℝ))
    (h : validatePriceCurve curve = Except.ok ()) :
    2 ≤ curve.length
    ∧ meanReturn Real.log curve = refMeanReturn Real.log curve
    ∧ variance Real.log curve = refVariance Real.log curve
    ∧ calibrateFromPriceCurve Real.log Real.sqrt curve
        = { mu := refMu Real.log Real.sqrt curve, sigma := refSigma Real.log Real.sqrt curve } := by
  have h2 : 2 ≤ curve.length := (meets_of_validate curve h).1
  have hv := variance_eq Real.log curve (by omega)
  refine ⟨h2, meanReturn_eq _ _, hv, ?_⟩
  simp only [calibrateFromPriceCurve, refMu, refSigma, hv, meanReturn_eq, pow_two]

/-- C1, at the curve `[(2020-01-01, 100), (2021-01-01, 90)]`: the result is the reference
estimator. -/
theorem calibrateFromPriceCurve_eq_reference_witness :
    calibrateFromPriceCurve Real.log Real.sqrt
        ([⟨⟨2020, 1, 1⟩, 100⟩, ⟨⟨2021, 1, 1⟩, 90⟩] : List (PricePoint ℝ))
      = { mu := refMu Real.log Real.sqrt [⟨⟨2020, 1, 1⟩, 100⟩, ⟨⟨2021, 1, 1⟩, 90⟩]
          sigma := refSigma Real.log Real.sqrt [⟨⟨2020, 1, 1⟩, 100⟩, ⟨⟨2021, 1, 1⟩, 90⟩] } :=
  (calibrateFromPriceCurve_eq_reference [⟨⟨2020, 1, 1⟩, 100⟩, ⟨⟨2021, 1, 1⟩, 90⟩]
    (by rw [validatePriceCurve_eq]; norm_num [List.range', at_, YearMonthDay.le])).2.2.2

theorem sysDays_step (curve : List (PricePoint α)) (hok : ∀ pp ∈ curve, pp.date.ok = true)
    (h : validatePriceCurve curve = Except.ok ()) (i : Nat) (hi : i < curve.length)
    (hpos : 0 < i) : 1 ≤ sysDays curve[i].date - sysDays curve[i - 1].date := by
  have hlt := (meets_of_validate curve h).2.2 i hi hpos
  have := sysDays_lt_of_lt curve[i - 1].date curve[i].date
    (hok _ (List.getElem_mem _)) (hok _ (List.getElem_mem _)) hlt
  omega

theorem refDt_ge (curve : List (PricePoint α)) (hok : ∀ pp ∈ curve, pp.date.ok = true)
    (h : validatePriceCurve curve = Except.ok ()) (i : Nat) (hi : i < curve.length)
    (hpos : 0 < i) : 1 / 365 ≤ refDt curve i := by
  have hstep := sysDays_step curve hok h i hi hpos
  unfold refDt
  rw [at__eq_getElem curve i hi, at__eq_getElem curve (i - 1) (by omega)]
  have hc : (1 : α) ≤ ((sysDays curve[i].date - sysDays curve[i - 1].date : Int) : α) := by
    exact_mod_cast hstep
  exact div_le_div_of_nonneg_right hc (by norm_num)

theorem refDt_pos (curve : List (PricePoint α)) (hok : ∀ pp ∈ curve, pp.date.ok = true)
    (h : validatePriceCurve curve = Except.ok ()) (i : Nat) (hi : i < curve.length)
    (hpos : 0 < i) : 0 < refDt curve i :=
  lt_of_lt_of_le (by norm_num) (refDt_ge curve hok h i hi hpos)

theorem totalTime_eq (log : α → α) (curve : List (PricePoint α)) :
    (accumulate log curve).totalTime = ∑ i ∈ Finset.Icc 1 (curve.length - 1), refDt curve i := by
  rw [accumulate_eq]
  exact sum_map_range' _ _

theorem totalLogReturn_eq (log : α → α) (curve : List (PricePoint α)) :
    (accumulate log curve).totalLogReturn
      = ∑ i ∈ Finset.Icc 1 (curve.length - 1), refLogReturn log curve i := by
  rw [accumulate_eq]
  exact sum_map_range' _ _

theorem totalTime_pos (log : α → α) (curve : List (PricePoint α))
    (hok : ∀ pp ∈ curve, pp.date.ok = true) (h : validatePriceCurve curve = Except.ok ()) :
    0 < (accumulate log curve).totalTime := by
  have h2 : 2 ≤ curve.length := (meets_of_validate curve h).1
  rw [totalTime_eq]
  apply Finset.sum_pos
  · intro i hi
    rw [Finset.mem_Icc] at hi
    exact refDt_pos curve hok h i (by omega) (by omega)
  · exact ⟨1, Finset.mem_Icc.2 ⟨le_refl 1, by omega⟩⟩

theorem refLogReturn_of_equal (curve : List (PricePoint ℝ))
    (hp : ∀ pp ∈ curve, 0 < pp.price) (heq : ∀ pp ∈ curve, ∀ qq ∈ curve, pp.price = qq.price)
    (i : Nat) (hi : i ∈ Finset.Icc 1 (curve.length - 1)) :
    refLogReturn Real.log curve i = 0 := by
  rw [Finset.mem_Icc] at hi
  have h1 : i < curve.length := by omega
  unfold refLogReturn
  rw [at__eq_getElem curve i h1, at__eq_getElem curve (i - 1) (by omega),
    heq curve[i] (List.getElem_mem _) curve[i - 1] (List.getElem_mem _),
    div_self (ne_of_gt (hp _ (List.getElem_mem _))), Real.log_one]

/-- C6: for every valid curve (accepted by `validatePriceCurve`) in which all prices are
equal, `calibrateFromPriceCurve` returns exactly `mu = 0` and `sigma = 0`. -/
theorem calibrate_equal_prices (curve : List (PricePoint ℝ))
    (h : validatePriceCurve curve = Except.ok ())
    (heq : ∀ pp ∈ curve, ∀ qq ∈ curve, pp.price = qq.price) :
    (calibrateFromPriceCurve Real.log Real.sqrt curve).mu = 0
    ∧ (calibrateFromPriceCurve Real.log Real.sqrt curve).sigma = 0 := by
  have hp := (meets_of_validate curve h).2.1
  have hmean : meanReturn Real.log curve = 0 := by
    unfold meanReturn
    rw [totalLogReturn_eq, Finset.sum_eq_zero (refLogReturn_of_equal curve hp heq), zero_div]
  have hsum : sumErrorSq Real.log curve = 0 := by
    rw [sumErrorSq_eq]
    apply Finset.sum_eq_zero
    intro i hi
    simp [errorTerm, hmean, refLogReturn_of_equal curve hp heq i hi]
  have hvar : variance Real.log curve = 0 := by
    unfold variance
    rw [hsum, zero_div]
  simp [calibrateFromPriceCurve, hvar, hmean]

/-- C6, at the constant curve `[(2020-01-01, 100), (2020-01-02, 100), (2020-01-05, 100)]`:
both parameters are zero. -/
theorem calibrate_equal_prices_witness :
    (calibrateFromPriceCurve Real.log Real.sqrt
      ([⟨⟨2020, 1, 1⟩, 100⟩, ⟨⟨2020, 1, 2⟩, 100⟩, ⟨⟨2020, 1, 5⟩, 100⟩] : List (PricePoint ℝ))).mu = 0
    ∧ (calibrateFromPriceCurve Real.log Real.sqrt
      ([⟨⟨2020, 1, 1⟩, 100⟩, ⟨⟨2020, 1, 2⟩, 100⟩, ⟨⟨2020, 1, 5⟩, 100⟩] : List (PricePoint ℝ))).sigma
        = 0 :=
  calibrate_equal_prices [⟨⟨2020, 1, 1⟩, 100⟩, ⟨⟨2020, 1, 2⟩, 100⟩, ⟨⟨2020, 1, 5⟩, 100⟩]
    (by rw [validatePriceCurve_eq]; norm_num [List.range', at_, YearMonthDay.le])
    (by simp)

theorem sumErrorSq_nonneg (log : α → α) (curve : List (PricePoint α))
    (hok : ∀ pp ∈ curve, pp.date.ok = true) (h : validatePriceCurve curve = Except.ok ()) :
    0 ≤ sumErrorSq log curve := by
  rw [sumErrorSq_eq]
  apply Finset.sum_nonneg
  intro i hi
  rw [Finset.mem_Icc] at hi
  have hdt := refDt_pos curve hok h i (by omega) (by omega)
  unfold errorTerm
  exact div_nonneg (mul_self_nonneg _) (le_of_lt hdt)

theorem variance_nonneg (log : α → α) (curve : List (PricePoint α))
    (hok : ∀ pp ∈ curve, pp.date.ok = true) (h : validatePriceCurve curve = Except.ok ()) :
    0 ≤ variance log curve := by
  unfold variance
  exact div_nonneg (sumErrorSq_nonneg log curve hok h) (Nat.cast_nonneg _)

theorem accumulate_two (log : α → α) (a b : PricePoint α) :
    accumulate log [a, b] =
      { logReturns := [log (b.price / a.price)]
        timeDeltas := [((sysDays b.date - sysDays a.date : Int) : α) / 365]
        totalLogReturn := log (b.price / a.price)
        totalTime := ((sysDays b.date - sysDays a.date : Int) : α) / 365 } := by
  simp [accumulate, List.range', accumStep, at_, DAYS_PER_YEAR]

theorem meanReturn_two (log : α → α) (a b : PricePoint α) :
    meanReturn log [a, b]
      = log (b.price / a.price) / (((sysDays b.date - sysDays a.date : Int) : α) / 365) := by
  simp only [meanReturn, accumulate_two]

theorem variance_two (log : α → α) (a b : PricePoint α)
    (hd : sysDays a.date < sysDays b.date) : variance log [a, b] = 0 := by
  have hne : (((sysDays b.date - sysDays a.date : Int) : α) / 365) ≠ 0 := by
    have : (0 : α) < ((sysDays b.date - sysDays a.date : Int) : α) := by
      exact_mod_cast (by omega : 0 < sysDays b.date - sysDays a.date)
    positivity
  have hr : List.range 1 = [0] := rfl
  simp only [variance, sumErrorSq, meanReturn_two, accumulate_two, List.length_singleton, hr,
    List.foldl_cons, List.foldl_nil, errorStep, List.getD_cons_zero]
  rw [div_mul_cancel₀ _ hne]
  simp

theorem validate_two (a b : PricePoint α) (ha : 0 < a.price) (hb : 0 < b.price)
    (hlt : a.date.lt b.date = true) : validatePriceCurve [a, b] = Except.ok () := by
  apply validate_of_meets
  refine ⟨by simp, by simpa using ⟨ha, hb⟩, ?_⟩
  intro i hi hpos
  have : i = 1 := by simp at hi; omega
  subst this
  exact hlt

theorem two_point_params (d0 d1 : YearMonthDay) (p0 p1 : ℝ)
    (hdays : sysDays d0 < sysDays d1) :
    (calibrateFromPriceCurve Real.log Real.sqrt [⟨d0, p0⟩, ⟨d1, p1⟩]).sigma = 0
    ∧ (calibrateFromPriceCurve Real.log Real.sqrt [⟨d0, p0⟩, ⟨d1, p1⟩]).mu
        = Real.log (p1 / p0) * 365 / ((sysDays d1 - sysDays d0 : Int) : ℝ) := by
  have hvar : variance Real.log [⟨d0, p0⟩, ⟨d1, p1⟩] = 0 :=
    variance_two Real.log ⟨d0, p0⟩ ⟨d1, p1⟩ (by simpa using hdays)
  have hpos : (0 : ℝ) < ((sysDays d1 - sysDays d0 : Int) : ℝ) := by
    exact_mod_cast (by omega : 0 < sysDays d1 - sysDays d0)
  constructor
  · simp only [calibrateFromPriceCurve, hvar, Real.sqrt_zero]
  · simp only [calibrateFromPriceCurve, hvar, meanReturn_two, Real.sqrt_zero]
    field_simp

/-- C8: every curve of exactly two observations with positive prices and strictly increasing
calendar dates passes validation, and over the reals calibrates to `sigma = 0` and
`mu = ln(price_1/price_0) * 365 / days`, so `mu` is negative exactly when `price_1 < price_0`;
in particular `[(2020-01-01, 100), (2021-01-01, 90)]` is accepted, spans 366 days
(`dt = 366/365`) and yields `mu = ln(0.9) * 365/366 < 0` and `sigma = 0`. -/
theorem calibrate_two_points :
    (∀ (d0 d1 : YearMonthDay) (p0 p1 : ℝ), d0.ok = true → d1.ok = true →
      d0.lt d1 = true → 0 < p0 → 0 < p1 →
        validatePriceCurve [⟨d0, p0⟩, ⟨d1, p1⟩] = Except.ok ()
        ∧ 1 ≤ sysDays d1 - sysDays d0
        ∧ (calibrateFromPriceCurve Real.log Real.sqrt [⟨d0, p0⟩, ⟨d1, p1⟩]).sigma = 0
        ∧ (calibrateFromPriceCurve Real.log Real.sqrt [⟨d0, p0⟩, ⟨d1, p1⟩]).mu
            = Real.log (p1 / p0) * 365 / ((sysDays d1 - sysDays d0 : Int) : ℝ)
        ∧ ((calibrateFromPriceCurve Real.log Real.sqrt [⟨d0, p0⟩, ⟨d1, p1⟩]).mu < 0 ↔ p1 < p0))
    ∧ (validatePriceCurve ([⟨⟨2020, 1, 1⟩, 100⟩, ⟨⟨2021, 1, 1⟩, 90⟩] : List (PricePoint ℝ))
          = Except.ok ()
        ∧ (accumulate Real.log [⟨⟨2020, 1, 1⟩, 100⟩, ⟨⟨2021, 1, 1⟩, 90⟩]).timeDeltas = [366 / 365]
        ∧ (calibrateFromPriceCurve Real.log Real.sqrt
            [⟨⟨2020, 1, 1⟩, 100⟩, ⟨⟨2021, 1, 1⟩, 90⟩]).mu = Real.log 0.9 * 365 / 366
        ∧ (calibrateFromPriceCurve Real.log Real.sqrt
            [⟨⟨2020, 1, 1⟩, 100⟩, ⟨⟨2021, 1, 1⟩, 90⟩]).mu < 0
        ∧ (calibrateFromPriceCurve Real.log Real.sqrt
            [⟨⟨2020, 1, 1⟩, 100⟩, ⟨⟨2021, 1, 1⟩, 90⟩]).sigma = 0) := by
  have hd : sysDays ⟨2021, 1, 1⟩ - sysDays ⟨2020, 1, 1⟩ = 366 := by decide
  have hconc := two_point_params ⟨2020, 1, 1⟩ ⟨2021, 1, 1⟩ 100 90 (by decide)
  rw [hd] at hconc
  have hmu : (calibrateFromPriceCurve Real.log Real.sqrt
      [⟨⟨2020, 1, 1⟩, 100⟩, ⟨⟨2021, 1, 1⟩, 90⟩]).mu = Real.log 0.9 * 365 / 366 := by
    rw [hconc.2]
    norm_num
  refine ⟨?_, validate_two _ _ (by norm_num) (by norm_num) (by decide), ?_, hmu, ?_, hconc.1⟩
  · intro d0 d1 p0 p1 h0 h1 hlt hp0 hp1
    have hdays := sysDays_lt_of_lt d0 d1 h0 h1 hlt
    have hpos : (0 : ℝ) < ((sysDays d1 - sysDays d0 : Int) : ℝ) := by
      exact_mod_cast (by omega : 0 < sysDays d1 - sysDays d0)
    obtain ⟨hs, hmu⟩ := two_point_params d0 d1 p0 p1 (by omega)
    refine ⟨validate_two _ _ hp0 hp1 hlt, by omega, hs, hmu, ?_⟩
    rw [hmu, div_neg_iff]
    constructor
    · rintro (⟨_, h⟩ | ⟨h, _⟩)
      · exact absurd hpos (not_lt.2 (le_of_lt h))
      · have h' : Real.log (p1 / p0) < 0 := by linarith
        rw [Real.log_neg_iff (div_pos hp1 hp0), div_lt_one hp0] at h'
        exact h'
    · intro h
      right
      refine ⟨?_, hpos⟩
      have : Real.log (p1 / p0) < 0 := by
        rw [Real.log_neg_iff (div_pos hp1 hp0), div_lt_one hp0]
        exact h
      linarith
  · rw [accumulate_two]
    simp only [hd]
    norm_num
  · rw [hmu]
    have : Real.log 0.9 < 0 := Real.log_neg (by norm_num) (by norm_num)
    linarith

/-- C8, at the curve `[(2020-03-01, 50), (2020-03-11, 60)]`: it is accepted, and calibrates
to `sigma = 0` with a drift that is not negative, as the price went up. -/
theorem calibrate_two_points_witness :
    validatePriceCurve ([⟨⟨2020, 3, 1⟩, 50⟩, ⟨⟨2020, 3, 11⟩, 60⟩] : List (PricePoint ℝ))
      = Except.ok ()
    ∧ (calibrateFromPriceCurve Real.log Real.sqrt
        [⟨⟨2020, 3, 1⟩, 50⟩, ⟨⟨2020, 3, 11⟩, 60⟩]).sigma = 0
    ∧ ¬ (calibrateFromPriceCurve Real.log Real.sqrt
        [⟨⟨2020, 3, 1⟩, 50⟩, ⟨⟨2020, 3, 11⟩, 60⟩]).mu < 0 :=
  have h := calibrate_two_points.1 ⟨2020, 3, 1⟩ ⟨2020, 3, 11⟩ 50 60 (by decide) (by decide)
    (by decide) (by norm_num) (by norm_num)
  ⟨h.1, h.2.2.1, fun hneg => absurd (h.2.2.2.2.1 hneg) (by norm_num)⟩

/-- C9: date spacing influences the result: the curves `[(2020-01-01, 100), (2020-01-02, 200)]`
and `[(2020-01-01, 100), (2020-01-03, 200)]` are both accepted and hold the same prices on
different calendar dates, yet calibrate to different `(mu, sigma)`; hence no function of
the price sequence alone gives the estimator on all accepted curves. -/
theorem calibrate_depends_on_dates :
    (∃ c1 c2 : List (PricePoint ℝ),
      validatePriceCurve c1 = Except.ok () ∧ validatePriceCurve c2 = Except.ok ()
      ∧ (∀ pp ∈ c1, pp.date.ok = true) ∧ (∀ pp ∈ c2, pp.date.ok = true)
      ∧ c1.map (fun pp => pp.price) = c2.map (fun pp => pp.price)
      ∧ c1.map (fun pp => pp.date) ≠ c2.map (fun pp => pp.date)
      ∧ calibrateFromPriceCurve Real.log Real.sqrt c1
          ≠ calibrateFromPriceCurve Real.log Real.sqrt c2)
    ∧ ¬ ∃ f : List ℝ → ModelParams ℝ, ∀ c : List (PricePoint ℝ),
        validatePriceCurve c = Except.ok () → (∀ pp ∈ c, pp.date.ok = true) →
          calibrateFromPriceCurve Real.log Real.sqrt c = f (c.map (fun pp => pp.price)) := by
  have hv1 : validatePriceCurve ([⟨⟨2020, 1, 1⟩, 100⟩, ⟨⟨2020, 1, 2⟩, 200⟩] : List (PricePoint ℝ))
      = Except.ok () := validate_two _ _ (by norm_num) (by norm_num) (by decide)
  have hv2 : validatePriceCurve ([⟨⟨2020, 1, 1⟩, 100⟩, ⟨⟨2020, 1, 3⟩, 200⟩] : List (PricePoint ℝ))
      = Except.ok () := validate_two _ _ (by norm_num) (by norm_num) (by decide)
  have hok1 : ∀ pp ∈ ([⟨⟨2020, 1, 1⟩, 100⟩, ⟨⟨2020, 1, 2⟩, 200⟩] : List (PricePoint ℝ)),
      pp.date.ok = true := by
    intro pp hpp
    simp only [List.mem_cons, List.mem_singleton, List.not_mem_nil, or_false] at hpp
    rcases hpp with rfl | rfl <;> decide
  have hok2 : ∀ pp ∈ ([⟨⟨2020, 1, 1⟩, 100⟩, ⟨⟨2020, 1, 3⟩, 200⟩] : List (PricePoint ℝ)),
      pp.date.ok = true := by
    intro pp hpp
    simp only [List.mem_cons, List.mem_singleton, List.not_mem_nil, or_false] at hpp
    rcases hpp with rfl | rfl <;> decide
  have hne : calibrateFromPriceCurve Real.log Real.sqrt
        ([⟨⟨2020, 1, 1⟩, 100⟩, ⟨⟨2020, 1, 2⟩, 200⟩] : List (PricePoint ℝ))
      ≠ calibrateFromPriceCurve Real.log Real.sqrt
        ([⟨⟨2020, 1, 1⟩, 100⟩, ⟨⟨2020, 1, 3⟩, 200⟩] : List (PricePoint ℝ)) := by
    intro heq
    have hmu := congrArg ModelParams.mu heq
    have hd1 : sysDays ⟨2020, 1, 2⟩ - sysDays ⟨2020, 1, 1⟩ = 1 := by decide
    have hd2 : sysDays ⟨2020, 1, 3⟩ - sysDays ⟨2020, 1, 1⟩ = 2 := by decide
    rw [(two_point_params ⟨2020, 1, 1⟩ ⟨2020, 1, 2⟩ 100 200 (by decide)).2,
      (two_point_params ⟨2020, 1, 1⟩ ⟨2020, 1, 3⟩ 100 200 (by decide)).2, hd1, hd2] at hmu
    have hlog : 0 < Real.log (200 / 100) := Real.log_pos (by norm_num)
    norm_num at hmu
    linarith
  refine ⟨⟨_, _, hv1, hv2, hok1, hok2, by simp, by simp, hne⟩, ?_⟩
  rintro ⟨f, hf⟩
  apply hne
  rw [hf _ hv1 hok1, hf _ hv2 hok2]
  simp

/-! ## The entry point `calibrate` -/

/-- Every failure of the loader is a `std::runtime_error`. -/
theorem parseLines_error_type (get_time : String → GetTimeResult)
    (stod : String → Except Exception α) (lines : List (List Char))
    (acc : List (PricePoint α)) (e : Exception)
    (h : parseLines get_time stod lines acc = Except.error e) :
    e.type = ExceptionType.runtime_error := by
  induction lines generalizing acc with
  | nil => simp [parseLines, pure, Except.pure] at h
  | cons line rest ih =>
    unfold parseLines at h
    split at h
    · split at h
      · exact ih _ h
      · simp only [throw, throwThe, MonadExceptOf.throw, Except.error.injEq] at h
        rw [← h]
    · simp only [throw, throwThe, MonadExceptOf.throw, Except.error.injEq] at h
      rw [← h]

/-- C10 fails on the code: on an empty CSV file `calibrate` raises the `std::invalid_argument`
of the size check, whose type is not `std::runtime_error`, whatever the parsers are. -/
theorem calibrate_empty_file (get_time : String → GetTimeResult)
    (stod : String → Except Exception ℝ) (log sqrt : ℝ → ℝ) :
    calibrate (fun _ => some "") get_time stod log sqrt "empty.csv"
        = Except.error ⟨ExceptionType.invalid_argument, "Need at least 2 price observations"⟩
    ∧ ExceptionType.invalid_argument ≠ ExceptionType.runtime_error := by
  constructor
  · rfl
  · decide

/-! ## Algebraic laws of the estimator -/

theorem sum_Icc_telescope (f : Nat → α) (k : Nat) :
    ∑ i ∈ Finset.Icc 1 k, (f i - f (i - 1)) = f k - f 0 := by
  induction k with
  | zero => simp
  | succ n ih =>
    rw [Finset.sum_Icc_succ_top (by omega), ih]
    simp

theorem at__price_pos (curve : List (PricePoint α)) (h : validatePriceCurve curve = Except.ok ())
    (i : Nat) (hi : i < curve.length) : 0 < (at_ curve i).price := by
  rw [at__eq_getElem curve i hi]
  exact (meets_of_validate curve h).2.1 _ (List.getElem_mem _)

theorem totalTime_telescope (log : α → α) (curve : List (PricePoint α)) :
    (accumulate log curve).totalTime
      = ((sysDays (at_ curve (curve.length - 1)).date - sysDays (at_ curve 0).date : Int) : α)
          / 365 := by
  rw [totalTime_eq]
  have hterm : ∀ i ∈ Finset.Icc 1 (curve.length - 1), refDt curve i
      = ((sysDays (at_ curve i).date : Int) : α) / 365
        - ((sysDays (at_ curve (i - 1)).date : Int) : α) / 365 := by
    intro i _
    simp only [refDt, Int.cast_sub, sub_div]
  rw [Finset.sum_congr rfl hterm,
    sum_Icc_telescope (fun i => ((sysDays (at_ curve i).date : Int) : α) / 365)]
  simp only [Int.cast_sub, sub_div]

theorem totalLogReturn_telescope (curve : List (PricePoint ℝ))
    (h : validatePriceCurve curve = Except.ok ()) :
    (accumulate Real.log curve).totalLogReturn
      = Real.log ((at_ curve (curve.length - 1)).price / (at_ curve 0).price) := by
  have h2 : 2 ≤ curve.length := (meets_of_validate curve h).1
  rw [totalLogReturn_eq]
  have hterm : ∀ i ∈ Finset.Icc 1 (curve.length - 1), refLogReturn Real.log curve i
      = Real.log (at_ curve i).price - Real.log (at_ curve (i - 1)).price := by
    intro i hi
    rw [Finset.mem_Icc] at hi
    unfold refLogReturn
    exact Real.log_div (ne_of_gt (at__price_pos curve h i (by omega)))
      (ne_of_gt (at__price_pos curve h (i - 1) (by omega)))
  rw [Finset.sum_congr rfl hterm, sum_Icc_telescope (fun i => Real.log (at_ curve i).price),
    Real.log_div (ne_of_gt (at__price_pos curve h _ (by omega)))
      (ne_of_gt (at__price_pos curve h 0 (by omega)))]

/-- C14: for every curve accepted by `validatePriceCurve`, over the reals the accumulated
`totalLogReturn` telescopes to `ln(price_last / price_first)` and `totalTime` equals the
day count from the first date to the last date divided by 365; hence `meanReturn` is
determined by the first and the last observation: any other accepted curve with the same
first and last observation has the same `meanReturn`. -/
theorem meanReturn_first_last (curve : List (PricePoint ℝ))
    (h : validatePriceCurve curve = Except.ok ()) :
    (accumulate Real.log curve).totalLogReturn
        = Real.log ((at_ curve (curve.length - 1)).price / (at_ curve 0).price)
    ∧ (accumulate Real.log curve).totalTime
        = ((sysDays (at_ curve (curve.length - 1)).date - sysDays (at_ curve 0).date : Int) : ℝ)
            / 365
    ∧ meanReturn Real.log curve
        = Real.log ((at_ curve (curve.length - 1)).price / (at_ curve 0).price)
          / (((sysDays (at_ curve (curve.length - 1)).date
                - sysDays (at_ curve 0).date : Int) : ℝ) / 365)
    ∧ ∀ other : List (PricePoint ℝ), validatePriceCurve other = Except.ok () →
        at_ other 0 = at_ curve 0 →
        at_ other (other.length - 1) = at_ curve (curve.length - 1) →
        meanReturn Real.log other = meanReturn Real.log curve := by
  have key : ∀ c : List (PricePoint ℝ), validatePriceCurve c = Except.ok () →
      meanReturn Real.log c
        = Real.log ((at_ c (c.length - 1)).price / (at_ c 0).price)
          / (((sysDays (at_ c (c.length - 1)).date - sysDays (at_ c 0).date : Int) : ℝ) / 365) := by
    intro c hc
    unfold meanReturn
    rw [totalLogReturn_telescope c hc, totalTime_telescope]
  refine ⟨totalLogReturn_telescope curve h, totalTime_telescope _ curve, key curve h, ?_⟩
  intro other ho h0 hl
  rw [key other ho, key curve h, h0, hl]

/-- C14, at a three-observation curve: the middle observation does not enter the mean
return, which is `ln(90/100)` over the 4 days from 2020-01-01 to 2020-01-05. -/
theorem meanReturn_first_last_witness :
    meanReturn Real.log
        ([⟨⟨2020, 1, 1⟩, 100⟩, ⟨⟨2020, 1, 2⟩, 110⟩, ⟨⟨2020, 1, 5⟩, 90⟩] : List (PricePoint ℝ))
      = Real.log (90 / 100) / (4 / 365) := by
  have h := (meanReturn_first_last [⟨⟨2020, 1, 1⟩, 100⟩, ⟨⟨2020, 1, 2⟩, 110⟩, ⟨⟨2020, 1, 5⟩, 90⟩]
    (by rw [validatePriceCurve_eq]; norm_num [List.range', at_, YearMonthDay.le])).2.2.1
  have hd : sysDays ⟨2020, 1, 5⟩ - sysDays ⟨2020, 1, 1⟩ = 4 := by decide
  rw [h]
  simp only [at_, List.length_cons, List.length_nil, List.getD_cons_zero, List.getD_cons_succ,
    Nat.reduceAdd, Nat.reduceSub, hd]
  norm_num

theorem at__scalePrices (c : α) (curve : List (PricePoint α)) (i : Nat) :
    at_ (scalePrices c curve) i = ⟨(at_ curve i).date, c * (at_ curve i).price⟩ := by
  unfold at_ scalePrices
  by_cases hi : i < curve.length
  · simp [List.getD_eq_getElem?_getD, List.getElem?_map, List.getElem?_eq_getElem hi]
  · have hn : curve.length ≤ i := by omega
    simp [List.getD_eq_getElem?_getD, List.getElem?_map, List.getElem?_eq_none hn]

theorem validate_scalePrices (c : α) (hc : 0 < c) (curve : List (PricePoint α)) :
    validatePriceCurve (scalePrices c curve) = validatePriceCurve curve := by
  rw [validatePriceCurve_eq, validatePriceCurve_eq]
  have hlen : (scalePrices c curve).length = curve.length := by simp [scalePrices]
  have hall : (scalePrices c curve).all (fun pp => decide (pp.price > 0))
      = curve.all (fun pp => decide (pp.price > 0)) := by
    unfold scalePrices
    rw [List.all_map]
    apply congrArg (fun f => curve.all f)
    funext pp
    simp only [Function.comp, gt_iff_lt, decide_eq_decide]
    exact ⟨fun h => (mul_pos_iff_of_pos_left hc).1 h, fun h => mul_pos hc h⟩
  have hany : (List.range' 1 (curve.length - 1)).any
        (fun i => (at_ (scalePrices c curve) i).date.le (at_ (scalePrices c curve) (i - 1)).date)
      = (List.range' 1 (curve.length - 1)).any
        (fun i => (at_ curve i).date.le (at_ curve (i - 1)).date) := by
    apply congrArg (fun f => (List.range' 1 (curve.length - 1)).any f)
    funext i
    rw [at__scalePrices, at__scalePrices]
  rw [hlen, hall, hany]

theorem accumulate_scalePrices (c : ℝ) (hc : 0 < c) (curve : List (PricePoint ℝ)) :
    accumulate Real.log (scalePrices c curve) = accumulate Real.log curve := by
  have hlen : (scalePrices c curve).length = curve.length := by simp [scalePrices]
  have hr : refLogReturn Real.log (scalePrices c curve) = refLogReturn Real.log curve := by
    funext i
    simp only [refLogReturn, at__scalePrices]
    rw [mul_div_mul_left _ _ (ne_of_gt hc)]
  have hd : refDt (scalePrices c curve) = refDt curve := by
    funext i
    simp only [refDt, at__scalePrices]
  rw [accumulate_eq, accumulate_eq, hlen, hr, hd]

theorem calibrate_of_accumulate_eq (log sqrt : α → α) (c1 c2 : List (PricePoint α))
    (h : accumulate log c1 = accumulate log c2) :
    calibrateFromPriceCurve log sqrt c1 = calibrateFromPriceCurve log sqrt c2 := by
  have hm : meanReturn log c1 = meanReturn log c2 := by unfold meanReturn; rw [h]
  have hs : sumErrorSq log c1 = sumErrorSq log c2 := by unfold sumErrorSq; rw [h, hm]
  have hv : variance log c1 = variance log c2 := by unfold variance; rw [h, hs]
  unfold calibrateFromPriceCurve
  rw [hm, hv]

/-- C15: price-scale invariance. For every curve and every real `c > 0`, multiplying every
price by `c` does not change the result of `validatePriceCurve` (acceptance, or the error
raised), and for accepted curves `calibrateFromPriceCurve` returns the same `(mu, sigma)`
over the reals. -/
theorem calibrate_scale_invariant (curve : List (PricePoint ℝ)) (c : ℝ) (hc : 0 < c) :
    validatePriceCurve (scalePrices c curve) = validatePriceCurve curve
    ∧ (validatePriceCurve curve = Except.ok () →
        calibrateFromPriceCurve Real.log Real.sqrt (scalePrices c curve)
          = calibrateFromPriceCurve Real.log Real.sqrt curve) :=
  ⟨validate_scalePrices c hc curve,
    fun _ => calibrate_of_accumulate_eq _ _ _ _ (accumulate_scalePrices c hc curve)⟩

/-- C15, at the curve `[(2020-01-01, 100), (2020-01-02, 110), (2020-01-05, 90)]` scaled by 3:
the prices become 300, 330, 270 and the calibration is unchanged. -/
theorem calibrate_scale_invariant_witness :
    calibrateFromPriceCurve Real.log Real.sqrt
        ([⟨⟨2020, 1, 1⟩, 3 * 100⟩, ⟨⟨2020, 1, 2⟩, 3 * 110⟩, ⟨⟨2020, 1, 5⟩, 3 * 90⟩] :
          List (PricePoint ℝ))
      = calibrateFromPriceCurve Real.log Real.sqrt
        ([⟨⟨2020, 1, 1⟩, 100⟩, ⟨⟨2020, 1, 2⟩, 110⟩, ⟨⟨2020, 1, 5⟩, 90⟩] : List (PricePoint ℝ)) :=
  (calibrate_scale_invariant [⟨⟨2020, 1, 1⟩, 100⟩, ⟨⟨2020, 1, 2⟩, 110⟩, ⟨⟨2020, 1, 5⟩, 90⟩] 3
    (by norm_num)).2
    (by rw [validatePriceCurve_eq]; norm_num [List.range', at_, YearMonthDay.le])

theorem gapsScaledBy_length (k : Nat) (curve stretched : List (PricePoint α))
    (h : GapsScaledBy k curve stretched) : stretched.length = curve.length := by
  have := congrArg List.length h.1
  simpa using this

theorem gapsScaledBy_price (k : Nat) (curve stretched : List (PricePoint α))
    (h : GapsScaledBy k curve stretched) (i : Nat) (hi : i < curve.length) :
    (at_ stretched i).price = (at_ curve i).price := by
  have hlen := gapsScaledBy_length k curve stretched h
  rw [at__eq_getElem curve i hi, at__eq_getElem stretched i (by omega)]
  have h1 : (stretched.map (fun pp => pp.price))[i]? = (curve.map (fun pp => pp.price))[i]? := by
    rw [h.1]
  simpa [List.getElem?_map, List.getElem?_eq_getElem hi,
    List.getElem?_eq_getElem (by omega : i < stretched.length)] using h1

theorem gapsScaledBy_refLogReturn (log : α → α) (k : Nat) (curve stretched : List (PricePoint α))
    (h : GapsScaledBy k curve stretched) (i : Nat) (hi : i ∈ Finset.Icc 1 (curve.length - 1)) :
    refLogReturn log stretched i = refLogReturn log curve i := by
  rw [Finset.mem_Icc] at hi
  unfold refLogReturn
  rw [gapsScaledBy_price k curve stretched h i (by omega),
    gapsScaledBy_price k curve stretched h (i - 1) (by omega)]

theorem gapsScaledBy_refDt (k : Nat) (curve stretched : List (PricePoint α))
    (h : GapsScaledBy k curve stretched) (i : Nat) (hi : i ∈ Finset.Icc 1 (curve.length - 1)) :
    refDt stretched i = (k : α) * refDt curve i := by
  rw [Finset.mem_Icc] at hi
  unfold refDt
  rw [h.2.2 i (by omega) (by omega)]
  push_cast
  ring

theorem gapsScaledBy_meanReturn (log : α → α) (k : Nat) (curve stretched : List (PricePoint α))
    (h : GapsScaledBy k curve stretched) :
    meanReturn log stretched = meanReturn log curve / (k : α) := by
  rw [meanReturn_eq, meanReturn_eq]
  unfold refMeanReturn
  rw [gapsScaledBy_length k curve stretched h,
    Finset.sum_congr rfl (gapsScaledBy_refLogReturn log k curve stretched h),
    Finset.sum_congr rfl (gapsScaledBy_refDt k curve stretched h), ← Finset.mul_sum,
    div_mul_eq_div_div_swap]

theorem gapsScaledBy_variance (log : α → α) (k : Nat) (hk : 0 < k)
    (curve stretched : List (PricePoint α)) (h : GapsScaledBy k curve stretched) :
    variance log stretched = variance log curve / (k : α) := by
  have hk0 : (k : α) ≠ 0 := by exact_mod_cast (by omega : k ≠ 0)
  have hsum : sumErrorSq log stretched = sumErrorSq log curve / (k : α) := by
    rw [sumErrorSq_eq, sumErrorSq_eq, gapsScaledBy_length k curve stretched h, Finset.sum_div]
    apply Finset.sum_congr rfl
    intro i hi
    unfold errorTerm
    rw [gapsScaledBy_refLogReturn log k curve stretched h i hi,
      gapsScaledBy_refDt k curve stretched h i hi, gapsScaledBy_meanReturn log k curve stretched h,
      div_mul_eq_div_div_swap]
    have e : meanReturn log curve / (k : α) * ((k : α) * refDt curve i)
        = meanReturn log curve * refDt curve i := by
      field_simp
      ring
    rw [e]
  unfold variance
  rw [hsum, logReturns_length, logReturns_length, gapsScaledBy_length k curve stretched h]
  ring

/-- C16: time-scaling law. For every accepted curve and every positive integer `k`, a curve
with the same first date and the same prices whose every consecutive day gap is `k` times
as long yields, over the reals, `meanReturn' = meanReturn / k`, `variance' = variance / k`,
`sigma' = sigma / sqrt(k)` and `mu' = mu / k`. -/
theorem calibrate_time_scaling (curve stretched : List (PricePoint ℝ)) (k : Nat) (hk : 0 < k)
    (_hvalid : validatePriceCurve curve = Except.ok ()) (hs : GapsScaledBy k curve stretched) :
    meanReturn Real.log stretched = meanReturn Real.log curve / (k : ℝ)
    ∧ variance Real.log stretched = variance Real.log curve / (k : ℝ)
    ∧ (calibrateFromPriceCurve Real.log Real.sqrt stretched).sigma
        = (calibrateFromPriceCurve Real.log Real.sqrt curve).sigma / Real.sqrt (k : ℝ)
    ∧ (calibrateFromPriceCurve Real.log Real.sqrt stretched).mu
        = (calibrateFromPriceCurve Real.log Real.sqrt curve).mu / (k : ℝ) := by
  have hm := gapsScaledBy_meanReturn Real.log k curve stretched hs
  have hv := gapsScaledBy_variance Real.log k hk curve stretched hs
  have hk0 : (0 : ℝ) ≤ (k : ℝ) := Nat.cast_nonneg k
  have hkpos : (0 : ℝ) < (k : ℝ) := by exact_mod_cast hk
  have hsig : Real.sqrt (variance Real.log stretched)
      = Real.sqrt (variance Real.log curve) / Real.sqrt (k : ℝ) := by
    rw [hv, Real.sqrt_div' _ hk0]
  refine ⟨hm, hv, hsig, ?_⟩
  simp only [calibrateFromPriceCurve]
  rw [hsig, hm]
  have hsq : Real.sqrt (k : ℝ) * Real.sqrt (k : ℝ) = (k : ℝ) := Real.mul_self_sqrt hk0
  have hsqne : Real.sqrt (k : ℝ) ≠ 0 := by
    intro h0
    rw [h0, mul_zero] at hsq
    exact absurd hsq.symm (ne_of_gt hkpos)
  have e : Real.sqrt (variance Real.log curve) / Real.sqrt (k : ℝ)
      * (Real.sqrt (variance Real.log curve) / Real.sqrt (k : ℝ))
      = Real.sqrt (variance Real.log curve) * Real.sqrt (variance Real.log curve) / (k : ℝ) := by
    rw [div_mul_div_comm, hsq]
  rw [e]
  field_simp
  ring

/-- C16, at the curve `[(2020-01-01, 100), (2020-01-02, 110), (2020-01-05, 90)]` with `k = 2`:
the curve `[(2020-01-01, 100), (2020-01-03, 110), (2020-01-09, 90)]` has gaps of 2 and 6
days instead of 1 and 3, and its drift is half as large. -/
theorem calibrate_time_scaling_witness :
    (calibrateFromPriceCurve Real.log Real.sqrt
        ([⟨⟨2020, 1, 1⟩, 100⟩, ⟨⟨2020, 1, 3⟩, 110⟩, ⟨⟨2020, 1, 9⟩, 90⟩] : List (PricePoint ℝ))).mu
      = (calibrateFromPriceCurve Real.log Real.sqrt
        ([⟨⟨2020, 1, 1⟩, 100⟩, ⟨⟨2020, 1, 2⟩, 110⟩, ⟨⟨2020, 1, 5⟩, 90⟩] :
          List (PricePoint ℝ))).mu / ((2 : Nat) : ℝ) :=
  (calibrate_time_scaling [⟨⟨2020, 1, 1⟩, 100⟩, ⟨⟨2020, 1, 2⟩, 110⟩, ⟨⟨2020, 1, 5⟩, 90⟩]
    [⟨⟨2020, 1, 1⟩, 100⟩, ⟨⟨2020, 1, 3⟩, 110⟩, ⟨⟨2020, 1, 9⟩, 90⟩] 2 (by decide)
    (by rw [validatePriceCurve_eq]; norm_num [List.range', at_, YearMonthDay.le])
    ⟨by simp, rfl, by
      intro i h0 hi
      simp only [List.length_cons, List.length_nil] at hi
      have hcases : i = 1 ∨ i = 2 := by omega
      rcases hcases with rfl | rfl <;> decide⟩).2.2.2

theorem foldl_runningStep (log : α → α) (curve : List (PricePoint α)) (is : List Nat)
    (s : RunningSums α) :
    is.foldl (runningStep log curve) s =
      { sumReturn := s.sumReturn + (is.map (refLogReturn log curve)).sum
        sumTime := s.sumTime + (is.map (refDt curve)).sum
        sumSquares := s.sumSquares
          + (is.map (fun i => refLogReturn log curve i * refLogReturn log curve i
              / refDt curve i)).sum } := by
  induction is generalizing s with
  | nil => simp
  | cons i rest ih =>
    rw [List.foldl_cons, ih]
    simp [runningStep, refLogReturn, refDt, add_assoc]

theorem runningSums_eq (log : α → α) (curve : List (PricePoint α)) :
    runningSums log curve =
      { sumReturn := ∑ i ∈ Finset.Icc 1 (curve.length - 1), refLogReturn log curve i
        sumTime := ∑ i ∈ Finset.Icc 1 (curve.length - 1), refDt curve i
        sumSquares := ∑ i ∈ Finset.Icc 1 (curve.length - 1),
          refLogReturn log curve i * refLogReturn log curve i / refDt curve i } := by
  unfold runningSums
  rw [foldl_runningStep]
  simp only [zero_add, sum_map_range']

/-- The algebraic identity behind the single pass, for nonzero `dt_i` and nonzero total. -/
theorem sum_sq_dev_eq (r dt : Nat → α) (k : Nat)
    (hdt : ∀ i ∈ Finset.Icc 1 k, dt i ≠ 0) (hT : ∑ i ∈ Finset.Icc 1 k, dt i ≠ 0) :
    ∑ i ∈ Finset.Icc 1 k,
        (r i - (∑ j ∈ Finset.Icc 1 k, r j) / (∑ j ∈ Finset.Icc 1 k, dt j) * dt i)
          * (r i - (∑ j ∈ Finset.Icc 1 k, r j) / (∑ j ∈ Finset.Icc 1 k, dt j) * dt i) / dt i
      = (∑ i ∈ Finset.Icc 1 k, r i * r i / dt i)
        - (∑ i ∈ Finset.Icc 1 k, r i) * (∑ i ∈ Finset.Icc 1 k, r i)
            / (∑ i ∈ Finset.Icc 1 k, dt i) := by
  set R := ∑ j ∈ Finset.Icc 1 k, r j with hR
  set T := ∑ j ∈ Finset.Icc 1 k, dt j with hTdef
  have hterm : ∀ i ∈ Finset.Icc 1 k,
      (r i - R / T * dt i) * (r i - R / T * dt i) / dt i
        = r i * r i / dt i - 2 * (R / T) * r i + (R / T) * (R / T) * dt i := by
    intro i hi
    have := hdt i hi
    field_simp
    ring
  rw [Finset.sum_congr rfl hterm, Finset.sum_add_distrib, Finset.sum_sub_distrib,
    ← Finset.mul_sum, ← Finset.mul_sum, ← hR, ← hTdef]
  field_simp
  ring

theorem sumErrorSq_single_pass (log : α → α) (curve : List (PricePoint α))
    (hok : ∀ pp ∈ curve, pp.date.ok = true) (h : validatePriceCurve curve = Except.ok ()) :
    sumErrorSq log curve
      = (runningSums log curve).sumSquares
        - (runningSums log curve).sumReturn * (runningSums log curve).sumReturn
            / (runningSums log curve).sumTime := by
  have hdt : ∀ i ∈ Finset.Icc 1 (curve.length - 1), refDt curve i ≠ 0 := by
    intro i hi
    rw [Finset.mem_Icc] at hi
    exact ne_of_gt (refDt_pos curve hok h i (by omega) (by omega))
  have hT : ∑ i ∈ Finset.Icc 1 (curve.length - 1), refDt curve i ≠ 0 := by
    rw [← totalTime_eq log]
    exact ne_of_gt (totalTime_pos log curve hok h)
  rw [sumErrorSq_eq, runningSums_eq, meanReturn_eq]
  exact sum_sq_dev_eq (refLogReturn log curve) (refDt curve) (curve.length - 1) hdt hT

/-- C17: for every accepted curve of real calendar dates, over the reals the two-pass sum of
squared deviations equals the single-pass expression
`Σ r_i²/dt_i − (Σ r_i)² / (Σ dt_i)`, so `calibrateFromPriceCurve`, which materialises the
`logReturns` and `timeDeltas` arrays, returns the same `(mu, sigma)` as the estimator that
keeps only the three running sums. -/
theorem calibrate_eq_single_pass (curve : List (PricePoint ℝ))
    (hok : ∀ pp ∈ curve, pp.date.ok = true)
    (h : validatePriceCurve curve = Except.ok ()) :
    (∑ i ∈ Finset.Icc 1 (curve.length - 1),
        (refLogReturn Real.log curve i - meanReturn Real.log curve * refDt curve i) ^ 2
          / refDt curve i
      = (∑ i ∈ Finset.Icc 1 (curve.length - 1), refLogReturn Real.log curve i ^ 2 / refDt curve i)
        - (∑ i ∈ Finset.Icc 1 (curve.length - 1), refLogReturn Real.log curve i) ^ 2
            / (∑ i ∈ Finset.Icc 1 (curve.length - 1), refDt curve i))
    ∧ sumErrorSq Real.log curve
        = (runningSums Real.log curve).sumSquares
          - (runningSums Real.log curve).sumReturn * (runningSums Real.log curve).sumReturn
              / (runningSums Real.log curve).sumTime
    ∧ calibrateFromPriceCurve Real.log Real.sqrt curve
        = calibrateSinglePass Real.log Real.sqrt curve := by
  have hs := sumErrorSq_single_pass Real.log curve hok h
  refine ⟨?_, hs, ?_⟩
  · have h1 := hs
    rw [sumErrorSq_eq, runningSums_eq] at h1
    simp only [errorTerm] at h1
    simp only [pow_two]
    exact h1
  · have hm : meanReturn Real.log curve
        = (runningSums Real.log curve).sumReturn / (runningSums Real.log curve).sumTime := by
      rw [meanReturn_eq, runningSums_eq]
      rfl
    have hv : variance Real.log curve
        = ((runningSums Real.log curve).sumSquares
            - (runningSums Real.log curve).sumReturn * (runningSums Real.log curve).sumReturn
                / (runningSums Real.log curve).sumTime) / ((curve.length - 1 : Nat) : ℝ) := by
      unfold variance
      rw [hs, logReturns_length]
    simp only [calibrateFromPriceCurve, calibrateSinglePass, hm, hv]

/-- C17, at the curve `[(2020-01-01, 100), (2020-01-02, 110), (2020-01-05, 90)]`: the two
estimators agree. -/
theorem calibrate_eq_single_pass_witness :
    calibrateFromPriceCurve Real.log Real.sqrt
        ([⟨⟨2020, 1, 1⟩, 100⟩, ⟨⟨2020, 1, 2⟩, 110⟩, ⟨⟨2020, 1, 5⟩, 90⟩] : List (PricePoint ℝ))
      = calibrateSinglePass Real.log Real.sqrt
        [⟨⟨2020, 1, 1⟩, 100⟩, ⟨⟨2020, 1, 2⟩, 110⟩, ⟨⟨2020, 1, 5⟩, 90⟩] :=
  (calibrate_eq_single_pass [⟨⟨2020, 1, 1⟩, 100⟩, ⟨⟨2020, 1, 2⟩, 110⟩, ⟨⟨2020, 1, 5⟩, 90⟩]
    (by
      intro pp hpp
      simp only [List.mem_cons, List.mem_singleton, List.not_mem_nil, or_false] at hpp
      rcases hpp with rfl | rfl | rfl <;> decide)
    (by rw [validatePriceCurve_eq]; norm_num [List.range', at_, YearMonthDay.le])).2.2

/-! ## The loader and the test harness -/

theorem parseDate_ok_fields (get_time : String → GetTimeResult) (s : String)
    (d : YearMonthDay) (h : parseDate get_time s = Except.ok d) :
    d.ok = true
      ∧ d = ⟨toShort ((get_time s).tm.tm_year + 1900), toUnsignedChar ((get_time s).tm.tm_mon + 1),
          toUnsignedChar (get_time s).tm.tm_mday⟩ := by
  unfold parseDate at h
  simp only [] at h
  split at h
  · cases h
  · split at h
    · cases h
    · rename_i hok
      simp only [pure, Except.pure, Except.ok.injEq] at h
      subst h
      simp only [Bool.not_eq_true, Bool.not_eq_false] at hok
      exact ⟨by simpa using hok, rfl⟩

theorem parseDate_error_of_not_ok (get_time : String → GetTimeResult) (s : String)
    (h : (YearMonthDay.mk (toShort ((get_time s).tm.tm_year + 1900))
      (toUnsignedChar ((get_time s).tm.tm_mon + 1))
      (toUnsignedChar (get_time s).tm.tm_mday)).ok = false) :
    ∃ e, parseDate get_time s = Except.error e ∧ e.type = ExceptionType.runtime_error := by
  unfold parseDate
  simp only []
  split
  · exact ⟨_, rfl, rfl⟩
  · rw [h]
    exact ⟨_, rfl, rfl⟩

/-- C12: every date that `parseDate` returns is a real calendar date (it passes `ok()`: month
in 1..12 and day within the length of that month of that year, leap years included) and is
the date whose fields were read, not another one; a string read as 2020-02-30 or as
2021-02-29 is rejected with a `std::runtime_error`, and neither date is ever returned. -/
theorem parseDate_real_calendar_date :
    (∀ (get_time : String → GetTimeResult) (s : String) (d : YearMonthDay),
      parseDate get_time s = Except.ok d →
        d.ok = true ∧ 1 ≤ d.month ∧ d.month ≤ 12 ∧ 1 ≤ d.day
          ∧ d.day ≤ lastDayOfMonth d.year d.month
          ∧ d = ⟨toShort ((get_time s).tm.tm_year + 1900),
                toUnsignedChar ((get_time s).tm.tm_mon + 1),
                toUnsignedChar (get_time s).tm.tm_mday⟩)
    ∧ (∀ (get_time : String → GetTimeResult) (s : String),
        (get_time s).tm = ⟨120, 1, 30⟩ →
          ∃ e, parseDate get_time s = Except.error e ∧ e.type = ExceptionType.runtime_error)
    ∧ (∀ (get_time : String → GetTimeResult) (s : String),
        (get_time s).tm = ⟨121, 1, 29⟩ →
          ∃ e, parseDate get_time s = Except.error e ∧ e.type = ExceptionType.runtime_error)
    ∧ (∀ (get_time : String → GetTimeResult) (s : String),
        parseDate get_time s ≠ Except.ok ⟨2020, 2, 30⟩
          ∧ parseDate get_time s ≠ Except.ok ⟨2021, 2, 29⟩)
    ∧ lastDayOfMonth 2020 2 = 29 ∧ lastDayOfMonth 2021 2 = 28 := by
  refine ⟨?_, ?_, ?_, ?_, by decide, by decide⟩
  · intro get_time s d h
    obtain ⟨hok, hd⟩ := parseDate_ok_fields get_time s d h
    have hb := hok
    simp only [YearMonthDay.ok, Bool.and_eq_true, decide_eq_true_eq] at hb
    obtain ⟨⟨⟨⟨⟨_, _⟩, h1⟩, h2⟩, h3⟩, h4⟩ := hb
    exact ⟨hok, h1, h2, h3, h4, hd⟩
  · intro get_time s h
    apply parseDate_error_of_not_ok
    rw [h]
    decide
  · intro get_time s h
    apply parseDate_error_of_not_ok
    rw [h]
    decide
  · intro get_time s
    constructor
    · intro h
      exact absurd (parseDate_ok_fields get_time s _ h).1 (by decide)
    · intro h
      exact absurd (parseDate_ok_fields get_time s _ h).1 (by decide)

/-- C12, at concrete strings: `2020-02-29` is returned as the leap day it names, while
`2020-02-30` and `2021-02-29` are rejected. -/
theorem parseDate_real_calendar_date_witness :
    (YearMonthDay.mk 2020 2 29).ok = true
    ∧ (∃ e, parseDate isoGetTime "2020-02-30" = Except.error e
        ∧ e.type = ExceptionType.runtime_error)
    ∧ (∃ e, parseDate isoGetTime "2021-02-29" = Except.error e
        ∧ e.type = ExceptionType.runtime_error) :=
  ⟨(parseDate_real_calendar_date.1 isoGetTime "2020-02-29" ⟨2020, 2, 29⟩ rfl).1,
   parseDate_real_calendar_date.2.1 isoGetTime "2020-02-30" rfl,
   parseDate_real_calendar_date.2.2.1 isoGetTime "2021-02-29" rfl⟩

theorem parseLines_fails_of_bad_line (get_time : String → GetTimeResult)
    (stod : String → Except Exception α) (lines : List (List Char)) (acc : List (PricePoint α))
    (h : ∃ line ∈ lines, splitFields line = none
      ∨ ∃ dateStr priceStr e, splitFields line = some (dateStr, priceStr)
          ∧ parseRecord get_time stod dateStr priceStr = Except.error e) :
    ∃ e, parseLines get_time stod lines acc = Except.error e := by
  induction lines generalizing acc with
  | nil =>
    obtain ⟨line, hmem, _⟩ := h
    cases hmem
  | cons l rest ih =>
    unfold parseLines
    cases hs : splitFields l with
    | none => exact ⟨_, rfl⟩
    | some fields =>
      obtain ⟨dateStr, priceStr⟩ := fields
      simp only []
      cases hr : parseRecord get_time stod dateStr priceStr with
      | error e => exact ⟨_, rfl⟩
      | ok pp =>
        simp only []
        apply ih
        obtain ⟨line, hmem, hbad⟩ := h
        rcases List.mem_cons.1 hmem with rfl | hmem'
        · rcases hbad with hnone | ⟨d, p, e, hsome, herr⟩
          · rw [hs] at hnone
            cases hnone
          · rw [hs] at hsome
            cases hsome
            rw [hr] at herr
            cases herr
        · exact ⟨line, hmem', hbad⟩

/-- C11 fails on the code: a file whose first line `2020-01-01,100,5` has three
comma-separated fields is loaded without error, the line giving the record
`(2020-01-01, 100)`: the text after the first comma, `100,5`, is handed to `std::stod`,
which converts the numeric prefix `100` and ignores the rest. -/
theorem parseCSV_accepts_three_fields :
    splitFields "2020-01-01,100,5".toList = some ("2020-01-01".toList, "100,5".toList)
    ∧ (parseCSVOrThrowException (fun _ => some "2020-01-01,100,5\n2020-01-02,101\n")
          isoGetTime decimalStod "prices.csv" : Except Exception (List (PricePoint ℝ)))
        = Except.ok [⟨⟨2020, 1, 1⟩, ((100 : Nat) : ℝ)⟩, ⟨⟨2020, 1, 2⟩, ((101 : Nat) : ℝ)⟩] :=
  ⟨by decide, rfl⟩

theorem toleranceExceeded_of_neg (value expected : α) (h : expected < 0) :
    toleranceExceeded value expected = false := by
  unfold toleranceExceeded
  rw [if_neg (ne_of_lt h)]
  rw [decide_eq_false_iff_not, not_le]
  have h1 : |value - expected| / expected ≤ 0 :=
    div_nonpos_of_nonneg_of_nonpos (abs_nonneg _) (le_of_lt h)
  exact lt_of_le_of_lt h1 (by norm_num)

theorem toleranceExceeded_of_pos (value expected : α) (h : 0 < expected) :
    toleranceExceeded value expected = true
      ↔ |value - expected| / |expected| ≥ 1 / 100000 := by
  unfold toleranceExceeded
  rw [if_neg (ne_of_gt h), abs_of_pos h, decide_eq_true_iff]

/-- C13 fails on the code: for a test case that expects success with a negative
`expectedMu`, the check of `mu` never fails, whatever the calibrated `mu` is: the relative
deviation is computed as `|mu - expected| / expected`, which is `<= 0` then. The test
passes as soon as `sigma >= 0` and the check of `sigma` passes. -/
theorem executeTestCase_negative_expectedMu (fs : String → Option String)
    (get_time : String → GetTimeResult) (stod : String → Except Exception α)
    (log sqrt : α → α) (test : TestCase α) (params : ModelParams α) (expected : α)
    (hcal : calibrate fs get_time stod log sqrt test.csvFile = Except.ok params)
    (hsucc : test.expectSuccess = true) (hsig : 0 ≤ params.sigma)
    (hmu : test.expectedMu = some expected) (hneg : expected < 0)
    (hsigma : ∀ es, test.expectedSigma = some es → toleranceExceeded params.sigma es = false) :
    executeTestCase fs get_time stod log sqrt test = TestOutcome.pass := by
  unfold executeTestCase
  rw [hcal]
  simp only [hsucc, if_true, hmu, toleranceExceeded_of_neg params.mu expected hneg]
  have h1 : (!decide (params.sigma ≥ 0)) = false := by simpa using hsig
  rw [h1]
  cases hes : test.expectedSigma with
  | none => simp
  | some es => simp [hsigma es hes]

theorem calibrate_two_record_file :
    calibrate (fun _ => some "2020-01-01,100\n2021-01-01,90\n") isoGetTime decimalStod
        Real.log Real.sqrt "drift.csv"
      = Except.ok (calibrateFromPriceCurve Real.log Real.sqrt
          [⟨⟨2020, 1, 1⟩, ((100 : Nat) : ℝ)⟩, ⟨⟨2021, 1, 1⟩, ((90 : Nat) : ℝ)⟩]) := by
  have hparse : (parseCSVOrThrowException (fun _ => some "2020-01-01,100\n2021-01-01,90\n")
      isoGetTime decimalStod "drift.csv" : Except Exception (List (PricePoint ℝ)))
      = Except.ok [⟨⟨2020, 1, 1⟩, ((100 : Nat) : ℝ)⟩, ⟨⟨2021, 1, 1⟩, ((90 : Nat) : ℝ)⟩] := rfl
  have hval : validatePriceCurve
      ([⟨⟨2020, 1, 1⟩, ((100 : Nat) : ℝ)⟩, ⟨⟨2021, 1, 1⟩, ((90 : Nat) : ℝ)⟩] : List (PricePoint ℝ))
      = Except.ok () := validate_two _ _ (by norm_num) (by norm_num) (by decide)
  unfold calibrate
  rw [hparse]
  simp only [hval]

theorem mu_two_record_file :
    (calibrateFromPriceCurve Real.log Real.sqrt
        [⟨⟨2020, 1, 1⟩, ((100 : Nat) : ℝ)⟩, ⟨⟨2021, 1, 1⟩, ((90 : Nat) : ℝ)⟩]).mu
      = Real.log (9 / 10) * 365 / 366 := by
  have hd : sysDays ⟨2021, 1, 1⟩ - sysDays ⟨2020, 1, 1⟩ = 366 := by decide
  rw [(two_point_params ⟨2020, 1, 1⟩ ⟨2021, 1, 1⟩ ((100 : Nat) : ℝ) ((90 : Nat) : ℝ)
    (by decide)).2, hd]
  norm_num

/-- C13, end to end: the file with the records `(2020-01-01, 100)` and `(2021-01-01, 90)`
calibrates to `mu = ln(0.9) * 365/366`, about `-0.105`; a test case on it that expects
`mu = -16.4463` passes, although the relative deviation is far above `1e-5`. -/
theorem executeTestCase_negative_expectedMu_witness :
    executeTestCase (fun _ => some "2020-01-01,100\n2021-01-01,90\n") isoGetTime decimalStod
        Real.log Real.sqrt ⟨"negative drift", "drift.csv", true, some (-16.4463), none⟩
      = TestOutcome.pass
    ∧ |Real.log (9 / 10) * 365 / 366 - (-16.4463)| / |(-16.4463 : ℝ)| ≥ 1 / 100000 := by
  refine ⟨executeTestCase_negative_expectedMu _ _ _ _ _
    ⟨"negative drift", "drift.csv", true, some (-16.4463), none⟩ _ (-16.4463)
    calibrate_two_record_file rfl (Real.sqrt_nonneg _) rfl (by norm_num)
    (fun es hes => by cases hes), ?_⟩
  have hlog : 1 - (9 / 10 : ℝ)⁻¹ ≤ Real.log (9 / 10) :=
    Real.one_sub_inv_le_log_of_pos (by norm_num)
  have hmu : -(1 / 8 : ℝ) ≤ Real.log (9 / 10) * 365 / 366 := by
    norm_num at hlog
    linarith
  rw [abs_of_nonneg (by linarith), abs_of_neg (by norm_num), ge_iff_le,
    le_div_iff₀ (by norm_num)]
  linarith

/-! ## Doubles with overflow and NaN -/

theorem overflow_example : (10 : ℝ) ^ 300 / (1 / 10 ^ 300) ≥ overflowBound := by
  unfold overflowBound
  norm_num

theorem ofExact_of_abs_le_one (x : ℝ) (h : |x| ≤ 1) : Double.ofExact x = Double.finite x := by
  have hb : (1 : ℝ) < overflowBound := by unfold overflowBound; norm_num
  have h1 := (abs_le.1 h).1
  have h2 := (abs_le.1 h).2
  unfold Double.ofExact
  rw [if_neg (by linarith), if_neg (by linarith)]

theorem finite_add_finite (a b : ℝ) :
    (Double.finite a + Double.finite b : Double ℝ) = Double.ofExact (a + b) := rfl

theorem finite_sub_finite (a b : ℝ) :
    (Double.finite a - Double.finite b : Double ℝ) = Double.ofExact (a - b) := rfl

theorem finite_mul_finite (a b : ℝ) :
    (Double.finite a * Double.finite b : Double ℝ) = Double.ofExact (a * b) := rfl

theorem finite_div_finite (a b : ℝ) (hb : b ≠ 0) :
    (Double.finite a / Double.finite b : Double ℝ) = Double.ofExact (a / b) := by
  show Double.div _ _ = _
  simp only [Double.div]
  rw [if_neg hb]

/-- On a curve without overflow the computation on doubles gives the finite values of the
exact computation: two equal prices one day apart give `mu = 0` and `sigma = 0`. -/
theorem calibrateDouble_equal_prices_example :
    calibrateFromPriceCurveDouble Real.log Real.sqrt
        ([⟨⟨2020, 1, 1⟩, 100⟩, ⟨⟨2020, 1, 2⟩, 100⟩] : List (PricePoint ℝ))
      = { mu := Double.finite 0, sigma := Double.finite 0 } := by
  have hd : sysDays ⟨2020, 1, 2⟩ - sysDays ⟨2020, 1, 1⟩ = 1 := by decide
  have hr : List.range 1 = [0] := rfl
  have hratio : (Double.finite (100 : ℝ) / Double.finite (100 : ℝ) : Double ℝ)
      = Double.finite 1 := by
    rw [finite_div_finite _ _ (by norm_num), div_self (by norm_num),
      ofExact_of_abs_le_one 1 (by norm_num)]
  have hlog : Double.log Real.log (Double.finite (1 : ℝ)) = Double.finite 0 := by
    simp [Double.log]
  have hdt : (Double.finite (((1 : Int) : ℝ)) / Double.finite (365 : ℝ) : Double ℝ)
      = Double.finite (1 / 365) := by
    rw [finite_div_finite _ _ (by norm_num), Int.cast_one,
      ofExact_of_abs_le_one _ (by rw [abs_of_pos (by norm_num)]; norm_num)]
  have h00 : (Double.finite (0 : ℝ) + Double.finite (0 : ℝ) : Double ℝ) = Double.finite 0 := by
    rw [finite_add_finite, add_zero, ofExact_of_abs_le_one 0 (by norm_num)]
  have h0t : (Double.finite (0 : ℝ) + Double.finite (1 / 365 : ℝ) : Double ℝ)
      = Double.finite (1 / 365) := by
    rw [finite_add_finite, zero_add,
      ofExact_of_abs_le_one _ (by rw [abs_of_pos (by norm_num)]; norm_num)]
  have hacc : accumulateDouble Real.log
      ([⟨⟨2020, 1, 1⟩, 100⟩, ⟨⟨2020, 1, 2⟩, 100⟩] : List (PricePoint ℝ))
      = ⟨[Double.finite 0], [Double.finite (1 / 365)], Double.finite 0,
          Double.finite (1 / 365)⟩ := by
    simp only [accumulateDouble, List.length_cons, List.length_nil, Nat.reduceAdd, Nat.reduceSub,
      List.range', List.foldl_cons, List.foldl_nil, accumStepDouble, at_, List.getD_cons_zero,
      List.getD_cons_succ, hd, hratio, hlog, DAYS_PER_YEAR, hdt, List.nil_append, h00, h0t]
  have hmean : (Double.finite (0 : ℝ) / Double.finite (1 / 365 : ℝ) : Double ℝ)
      = Double.finite 0 := by
    rw [finite_div_finite _ _ (by norm_num), zero_div, ofExact_of_abs_le_one 0 (by norm_num)]
  have hprod : (Double.finite (0 : ℝ) * Double.finite (1 / 365 : ℝ) : Double ℝ)
      = Double.finite 0 := by
    rw [finite_mul_finite, zero_mul, ofExact_of_abs_le_one 0 (by norm_num)]
  have hsub : (Double.finite (0 : ℝ) - Double.finite (0 : ℝ) : Double ℝ) = Double.finite 0 := by
    rw [finite_sub_finite, sub_zero, ofExact_of_abs_le_one 0 (by norm_num)]
  have hsq : (Double.finite (0 : ℝ) * Double.finite (0 : ℝ) : Double ℝ) = Double.finite 0 := by
    rw [finite_mul_finite, zero_mul, ofExact_of_abs_le_one 0 (by norm_num)]
  have hcount : (Double.finite (0 : ℝ) / Double.finite (((1 : Nat) : ℝ)) : Double ℝ)
      = Double.finite 0 := by
    rw [finite_div_finite _ _ (by norm_num), zero_div, ofExact_of_abs_le_one 0 (by norm_num)]
  have htwo : (Double.finite (0 : ℝ) / Double.finite (2 : ℝ) : Double ℝ) = Double.finite 0 := by
    rw [finite_div_finite _ _ (by norm_num), zero_div, ofExact_of_abs_le_one 0 (by norm_num)]
  have hsqrt : Double.sqrt Real.sqrt (Double.finite (0 : ℝ)) = Double.finite 0 := by
    simp [Double.sqrt]
  simp only [calibrateFromPriceCurveDouble, hacc, List.length_singleton, hr, List.foldl_cons,
    List.foldl_nil, errorStepDouble, List.getD_cons_zero, hmean, hprod, hsub, hsq, h00, hcount,
    hsqrt, htwo]

end gbm
